import Mathlib

/-!
Shallow embedding of the SwanEditor workflow-editor core (`SwanEditor.js`).

The graph store (`nodes`, `edges` JS `Map`s are modelled as insertion-ordered
lists with unique keys), the adjacency cache (`connectionCache`), the selection
set, the clipboard, the drag session and the id counters are carried in a
`SwanState`.  DOM rendering, CSS, lifecycle hooks and event callbacks are
side effects outside the store and are not modelled, except that `endDrag`
returns the list of node ids for which an `onNodeMove` notification fires.
JS `Math.random()` is modelled as a stream `rand : ℕ → ℚ` consumed at
`randIdx`, mirroring the short-circuit `position.x || Math.random() * 400 + 100`.
JS object values are modelled by `JVal`; object spread `{...a, ...b}` by
`spreadMerge`.
-/

/-- A JS value stored in a node/edge `data` or `style` object. -/
inductive JVal where
  | str (s : String)
  | num (q : ℚ)
  | bool (b : Bool)
deriving DecidableEq

/-- A JS object: insertion-ordered association list of fields. -/
abbrev JObj := List (String × JVal)

/-- First-match lookup in an association list (JS `Map.get` / property read). -/
def mapGet {α : Type} (m : List (String × α)) (k : String) : Option α :=
  match m with
  | [] => none
  | (k', v) :: rest => if k' = k then some v else mapGet rest k

/-- Update the value stored under a key, leaving other entries alone
(mutation of the object returned by JS `Map.get`). -/
def mapUpdate {α : Type} (m : List (String × α)) (k : String) (f : α → α) :
    List (String × α) :=
  m.map (fun p => if p.1 = k then (p.1, f p.2) else p)

/-- JS `Map.set`: replace in place when the key exists, append otherwise. -/
def mapSet {α : Type} (m : List (String × α)) (k : String) (v : α) :
    List (String × α) :=
  if (mapGet m k).isSome then
    m.map (fun p => if p.1 = k then (k, v) else p)
  else m ++ [(k, v)]

/-- JS object spread `{...a, ...b}`: `a`'s fields in `a`'s order with values
overridden by `b` where present, then `b`'s new fields in `b`'s order. -/
def spreadMerge (a b : JObj) : JObj :=
  a.map (fun p => (p.1, ((mapGet b p.1).getD p.2))) ++
    b.filter (fun p => (mapGet a p.1).isNone)

/-- JS `Set.add`: append when absent (sets are modelled as duplicate-free
insertion-ordered lists). -/
def setAdd (l : List String) (x : String) : List String :=
  if x ∈ l then l else l ++ [x]

/-- A concrete node position (both coordinates resolved). -/
structure Pos where
  x : ℚ
  y : ℚ
deriving DecidableEq

/-- A position argument as supplied by a caller: either coordinate may be
absent (JS `undefined`), mirroring `createNode(type, position = {}, ...)`. -/
structure OptPos where
  x : Option ℚ
  y : Option ℚ
deriving DecidableEq

/-- A node of the graph store.  The DOM `element` and `ports` handles are not
modelled. -/
structure Node where
  id : String
  type : String
  position : Pos
  data : JObj
deriving DecidableEq

/-- An edge of the graph store.  The SVG `element` handle is not modelled. -/
structure Edge where
  id : String
  source : String
  target : String
  style : JObj
  data : JObj
deriving DecidableEq

/-- Per-node adjacency cache entry: `{inputs: Set, outputs: Set}` of edge ids. -/
structure CacheEntry where
  inputs : List String
  outputs : List String
deriving DecidableEq

/-- Options for `createEdge(source, target, options = {})`; both fields may be
absent (`{...options.style}` of `undefined` spreads nothing, and
`options.data || {}` falls back to the empty object). -/
structure EdgeOptions where
  style : Option JObj
  data : Option JObj

/-- The editor configuration relevant to the store: `nodeDefaults` and
`edgeStyle` (canvas/theme/callback options are rendering-only). -/
structure Options where
  nodeDefaults : JObj
  edgeStyle : JObj
deriving DecidableEq

/-- The `nodeDefaults` of the constructor's default configuration. -/
def defaultNodeDefaults : JObj :=
  [("width", JVal.num 200), ("resizable", JVal.bool false),
   ("deletable", JVal.bool true)]

/-- The `edgeStyle` of the constructor's default configuration. -/
def defaultEdgeStyle : JObj :=
  [("color", JVal.str "#6b7280"), ("width", JVal.num 2),
   ("dashed", JVal.bool false), ("animated", JVal.bool false)]

/-- The default `Options`. -/
def defaultOptions : Options :=
  { nodeDefaults := defaultNodeDefaults, edgeStyle := defaultEdgeStyle }

/-- Clipboard node snapshot taken by `copySelected`. -/
structure ClipNode where
  type : String
  data : JObj
  position : Pos
deriving DecidableEq

/-- The clipboard: node snapshots plus the induced sub-edges. -/
structure Clipboard where
  nodes : List ClipNode
  edges : List Edge
deriving DecidableEq

/-- A drag session (`this.dragState`): the dragged node ids and their recorded
start positions.  The pointer offsets only affect geometry and are omitted. -/
structure DragState where
  nodes : List String
  startPositions : List (String × Pos)
deriving DecidableEq

/-- The editor state. -/
structure SwanState where
  options : Options
  nodes : List Node
  edges : List Edge
  selectedNodes : List String
  connectionCache : List (String × CacheEntry)
  dirtyNodes : List String
  nodeIdCounter : ℕ
  edgeIdCounter : ℕ
  clipboard : Option Clipboard
  dragState : Option DragState
  rand : ℕ → ℚ
  randIdx : ℕ

/-- A freshly constructed editor (state after `init()`): empty store, both
counters at 1. -/
def emptyState (opts : Options) (r : ℕ → ℚ) : SwanState :=
  { options := opts, nodes := [], edges := [], selectedNodes := [],
    connectionCache := [], dirtyNodes := [], nodeIdCounter := 1,
    edgeIdCounter := 1, clipboard := none, dragState := none,
    rand := r, randIdx := 0 }

/-- `this.nodes.get(id)` (a JS `Map` keyed by `node.id`). -/
def findNode (s : SwanState) (nodeId : String) : Option Node :=
  s.nodes.find? (fun n => n.id = nodeId)

/-- `this.edges.get(id)`. -/
def findEdge (s : SwanState) (edgeId : String) : Option Edge :=
  s.edges.find? (fun e => e.id = edgeId)

/-- `this.nodes.set(node.id, node)`. -/
def nodesSet (l : List Node) (n : Node) : List Node :=
  if (l.find? (fun m => m.id = n.id)).isSome then
    l.map (fun m => if m.id = n.id then n else m)
  else l ++ [n]

/-- `this.edges.set(edge.id, edge)`. -/
def edgesSet (l : List Edge) (e : Edge) : List Edge :=
  if (l.find? (fun f => f.id = e.id)).isSome then
    l.map (fun f => if f.id = e.id then e else f)
  else l ++ [e]

/-- Draw `Math.random()` from the stream. -/
def nextRand (s : SwanState) : ℚ × SwanState :=
  (s.rand s.randIdx, { s with randIdx := s.randIdx + 1 })

/-- `initNodeCache(nodeId)`. -/
def initNodeCache (s : SwanState) (nodeId : String) : SwanState :=
  if (mapGet s.connectionCache nodeId).isSome then s
  else { s with connectionCache :=
          s.connectionCache ++ [(nodeId, { inputs := [], outputs := [] })] }

/-- `cleanupNodeCache(nodeId)`. -/
def cleanupNodeCache (s : SwanState) (nodeId : String) : SwanState :=
  { s with
    connectionCache := s.connectionCache.filter (fun p => p.1 ≠ nodeId),
    dirtyNodes := s.dirtyNodes.filter (fun i => i ≠ nodeId) }

/-- `updateCacheOnEdgeCreate(edge)` (the scheduled batch re-render is a
rendering side effect and is not modelled beyond the dirty set). -/
def updateCacheOnEdgeCreate (s : SwanState) (e : Edge) : SwanState :=
  let s := initNodeCache s e.source
  let s := initNodeCache s e.target
  let cc1 := mapUpdate s.connectionCache e.source
    (fun c => { c with outputs := setAdd c.outputs e.id })
  let cc2 := mapUpdate cc1 e.target
    (fun c => { c with inputs := setAdd c.inputs e.id })
  { s with connectionCache := cc2,
           dirtyNodes := setAdd (setAdd s.dirtyNodes e.source) e.target }

/-- `updateCacheOnEdgeDelete(edge)`. -/
def updateCacheOnEdgeDelete (s : SwanState) (e : Edge) : SwanState :=
  let cc1 :=
    match mapGet s.connectionCache e.source with
    | some _ =>
      mapUpdate s.connectionCache e.source
        (fun c => { c with outputs := c.outputs.filter (fun i => i ≠ e.id) })
    | none => s.connectionCache
  let cc2 :=
    match mapGet s.connectionCache e.target with
    | some _ =>
      mapUpdate cc1 e.target
        (fun c => { c with inputs := c.inputs.filter (fun i => i ≠ e.id) })
    | none => cc1
  { s with connectionCache := cc2,
           dirtyNodes := setAdd (setAdd s.dirtyNodes e.source) e.target }

/-- `createNode(type, position = {}, data = {})`.  The id is
`` `node-${this.nodeIdCounter++}` ``; a falsy (absent or `0`) coordinate is
defaulted to `Math.random() * 400 + 100` (x) or `Math.random() * 300 + 100`
(y); `data` is `{...this.options.nodeDefaults, ...data}`.  Rendering and the
`onCreate`/`onNodeCreate` hooks are side effects outside the store. -/
def createNode (s : SwanState) (type : String) (position : OptPos)
    (data : JObj) : String × SwanState :=
  let id := "node-" ++ Nat.repr s.nodeIdCounter
  let s := { s with nodeIdCounter := s.nodeIdCounter + 1 }
  let xs :=
    match position.x with
    | some v =>
        if v = 0 then
          let rs := nextRand s
          (rs.1 * 400 + 100, rs.2)
        else (v, s)
    | none =>
        let rs := nextRand s
        (rs.1 * 400 + 100, rs.2)
  let s := xs.2
  let ys :=
    match position.y with
    | some v =>
        if v = 0 then
          let rs := nextRand s
          (rs.1 * 300 + 100, rs.2)
        else (v, s)
    | none =>
        let rs := nextRand s
        (rs.1 * 300 + 100, rs.2)
  let s := ys.2
  let node : Node :=
    { id := id, type := type, position := { x := xs.1, y := ys.1 },
      data := spreadMerge s.options.nodeDefaults data }
  let s := { s with nodes := nodesSet s.nodes node }
  let s := initNodeCache s id
  (id, s)

/-- `createEdge(sourceId, targetId, options = {})`.  Returns `null` when an
endpoint is missing; returns the existing id when an edge with the same
ordered `(source, target)` pair exists; otherwise stores a new edge with id
`` `edge-${this.edgeIdCounter++}` ``, style
`{...this.options.edgeStyle, ...options.style}` and data `options.data || {}`,
and updates the adjacency cache.  Rendering, port states and the
connect hooks are side effects outside the store. -/
def createEdge (s : SwanState) (sourceId targetId : String)
    (options : EdgeOptions) : Option String × SwanState :=
  if ¬((findNode s sourceId).isSome ∧ (findNode s targetId).isSome) then
    (none, s)
  else
    match s.edges.find?
        (fun e => e.source = sourceId ∧ e.target = targetId) with
    | some existingEdge => (some existingEdge.id, s)
    | none =>
      let id := "edge-" ++ Nat.repr s.edgeIdCounter
      let s := { s with edgeIdCounter := s.edgeIdCounter + 1 }
      let edge : Edge :=
        { id := id, source := sourceId, target := targetId,
          style := spreadMerge s.options.edgeStyle (options.style.getD []),
          data := options.data.getD [] }
      let s := { s with edges := edgesSet s.edges edge }
      let s := updateCacheOnEdgeCreate s edge
      (some id, s)

/-- `deleteEdge(edgeId)`: no-op when absent; otherwise updates the cache,
then removes the edge from the store (disconnect hooks, DOM removal, port
states and the `onEdgeDelete` callback are side effects outside the store). -/
def deleteEdge (s : SwanState) (edgeId : String) : SwanState :=
  match findEdge s edgeId with
  | none => s
  | some edge =>
    let s := updateCacheOnEdgeDelete s edge
    { s with edges := s.edges.filter (fun e => e.id ≠ edgeId) }

/-- `deleteNode(nodeId)`: no-op when absent; otherwise deletes every incident
edge through `deleteEdge`, removes the id from the selection, cleans the
cache entry and removes the node. -/
def deleteNode (s : SwanState) (nodeId : String) : SwanState :=
  match findNode s nodeId with
  | none => s
  | some _ =>
    let connectedEdges :=
      s.edges.filter (fun e => e.source = nodeId ∨ e.target = nodeId)
    let s := (connectedEdges.map (fun e => e.id)).foldl deleteEdge s
    let s := { s with
      selectedNodes := s.selectedNodes.filter (fun i => i ≠ nodeId) }
    let s := cleanupNodeCache s nodeId
    { s with nodes := s.nodes.filter (fun n => n.id ≠ nodeId) }

/-- `validateCache()`: rebuild the adjacency index from the edge store (only
counting edges whose two endpoints are live), count the live nodes whose
cached input/output set sizes disagree with the rebuilt ones, and replace the
cache by the rebuilt one when any disagree.  Returns the issue count. -/
def rebuildCache (s : SwanState) : List (String × CacheEntry) :=
  let newCache := s.nodes.map (fun n => (n.id, CacheEntry.mk [] []))
  s.edges.foldl (fun m e =>
    if (mapGet m e.source).isSome ∧ (mapGet m e.target).isSome then
      let m := mapUpdate m e.source
        (fun c => { c with outputs := setAdd c.outputs e.id })
      mapUpdate m e.target (fun c => { c with inputs := setAdd c.inputs e.id })
    else m) newCache

/-- The issue count and resulting state of `validateCache()`. -/
def validateCache (s : SwanState) : ℕ × SwanState :=
  let newCache := rebuildCache s
  let issues := newCache.foldl (fun issues p =>
    match mapGet s.connectionCache p.1 with
    | none => issues + 1
    | some current =>
      if p.2.inputs.length ≠ current.inputs.length ∨
          p.2.outputs.length ≠ current.outputs.length then issues + 1
      else issues) 0
  if issues > 0 then (issues, { s with connectionCache := newCache })
  else (issues, s)

/-- `validateConnection(sourceNodeId, sourcePortType, targetNodeId,
targetPortType)`: rejects same node, same port roles, and any existing edge
between the pair in either direction. -/
def validateConnection (s : SwanState) (sourceNodeId sourcePortType
    targetNodeId targetPortType : String) : Bool :=
  if sourceNodeId = targetNodeId then false
  else if sourcePortType = targetPortType then false
  else
    match s.edges.find? (fun e =>
        (e.source = sourceNodeId ∧ e.target = targetNodeId) ∨
        (e.source = targetNodeId ∧ e.target = sourceNodeId)) with
    | some _ => false
    | none => true

/-- `clearSelection()` (the DOM class updates are not modelled). -/
def clearSelection (s : SwanState) : SwanState :=
  { s with selectedNodes := [] }

/-- `selectNode(nodeId, multi = false)`. -/
def selectNode (s : SwanState) (nodeId : String) (multi : Bool) : SwanState :=
  let s := if multi then s else clearSelection s
  match findNode s nodeId with
  | none => s
  | some _ => { s with selectedNodes := setAdd s.selectedNodes nodeId }

/-- `selectAll()`. -/
def selectAll (s : SwanState) : SwanState :=
  { s with selectedNodes :=
      s.nodes.foldl (fun sel n => setAdd sel n.id) s.selectedNodes }

/-- `deleteSelected()`. -/
def deleteSelected (s : SwanState) : SwanState :=
  let s := s.selectedNodes.foldl deleteNode s
  clearSelection s

/-- `copySelected()`: snapshot the selected nodes (type, data copy, position
copy) together with the edges whose two endpoints are selected. -/
def copySelected (s : SwanState) : SwanState :=
  let clip : Clipboard :=
    { nodes := s.selectedNodes.filterMap (fun id =>
        (findNode s id).map (fun n =>
          { type := n.type, data := n.data, position := n.position })),
      edges := s.edges.filter (fun e =>
        e.source ∈ s.selectedNodes ∧ e.target ∈ s.selectedNodes) }
  { s with clipboard := some clip }

/-- `paste()`: for each clipboard node, create a fresh node at the stored
position shifted by the fixed offset 50 and select it.  (The source builds an
`idMap` from clipboard entries to the fresh ids but never reads it, and the
clipboard's `edges` are never consumed: no edge is created.) -/
def paste (s : SwanState) : SwanState :=
  match s.clipboard with
  | none => s
  | some clipboard =>
    if clipboard.nodes.isEmpty then s
    else
      let offset : ℚ := 50
      let s := clearSelection s
      clipboard.nodes.foldl (fun s nodeData =>
        let r := createNode s nodeData.type
          { x := some (nodeData.position.x + offset),
            y := some (nodeData.position.y + offset) } nodeData.data
        selectNode r.2 r.1 true) s

/-- `endDrag()`: removes the dragging markers (not modelled), then emits an
`onNodeMove` notification for every dragged node that is live and whose
current position differs from its recorded start position, and clears the
session.  Returns the ids notified, in order. -/
def endDrag (s : SwanState) : List String × SwanState :=
  match s.dragState with
  | none => ([], s)
  | some d =>
    let emits := d.nodes.filter (fun nodeId =>
      match findNode s nodeId, mapGet d.startPositions nodeId with
      | some n, some startPos =>
        decide (startPos.x ≠ n.position.x ∨ startPos.y ≠ n.position.y)
      | some _, none => false
      | none, _ => false)
    (emits, { s with dragState := none })

/-- The exported form of a node (`getWorkflowData`). -/
structure DocNode where
  id : String
  type : String
  position : OptPos
  data : JObj

/-- The exported form of an edge (`getWorkflowData`). -/
structure DocEdge where
  id : String
  source : String
  target : String
  style : JObj
  data : JObj

/-- A parsed workflow document; either top-level list may be absent
(`if (data.nodes)` / `if (data.edges)` guards in `loadWorkflowData`). -/
structure WorkflowDoc where
  nodes : Option (List DocNode)
  edges : Option (List DocEdge)

/-- `getWorkflowData()`: snapshot of every node's id/type/position/data and
every edge's id/source/target/style/data, in store order. -/
def getWorkflowData (s : SwanState) : WorkflowDoc :=
  { nodes := some (s.nodes.map (fun n =>
      { id := n.id, type := n.type,
        position := { x := some n.position.x, y := some n.position.y },
        data := n.data })),
    edges := some (s.edges.map (fun e =>
      { id := e.id, source := e.source, target := e.target,
        style := e.style, data := e.data })) }

/-- `clear()`: delete every node (cascading through `deleteNode`), reset both
id counters to 1, clear the selection. -/
def clear (s : SwanState) : SwanState :=
  let s := (s.nodes.map (fun n => n.id)).foldl deleteNode s
  let s := { s with nodeIdCounter := 1, edgeIdCounter := 1 }
  clearSelection s

/-- `loadWorkflowData(data)`: clear, then create the document's nodes (mapping
the document ids to the freshly allocated ids) and then its edges, skipping
an edge whenever either remapped endpoint id is missing or falsy. -/
def loadWorkflowData (s : SwanState) (doc : WorkflowDoc) : SwanState :=
  let s := clear s
  let acc :=
    match doc.nodes with
    | none => (s, ([] : List (String × String)))
    | some nodeList =>
      nodeList.foldl
        (fun (acc : SwanState × List (String × String)) (nodeData : DocNode) =>
          let r :=
            createNode acc.1 nodeData.type nodeData.position nodeData.data
          (r.2, mapSet acc.2 nodeData.id r.1)) (s, [])
  let s := acc.1
  let idMap := acc.2
  match doc.edges with
  | none => s
  | some edgeList =>
    edgeList.foldl (fun s edgeData =>
      match mapGet idMap edgeData.source, mapGet idMap edgeData.target with
      | some sourceId, some targetId =>
        if sourceId ≠ "" ∧ targetId ≠ "" then
          (createEdge s sourceId targetId
            { style := some edgeData.style, data := some edgeData.data }).2
        else s
      | _, _ => s) s

/-- The outcome of `JSON.parse` on an import payload: either the parse throws
(unparsable JSON) or it yields a document object whose `nodes`/`edges` fields
may each be absent. -/
inductive ParseResult where
  | parseError
  | parsedDoc (doc : WorkflowDoc)

/-- `importJSON(json)`: `JSON.parse` failure is caught and reported as
`false` with the state untouched; a parsed document is handed to
`loadWorkflowData` and `true` is returned. -/
def importJSON (pr : ParseResult) (s : SwanState) : Bool × SwanState :=
  match pr with
  | ParseResult.parseError => (false, s)
  | ParseResult.parsedDoc doc => (true, loadWorkflowData s doc)

/-- The operations of claim C2: the four store mutations. -/
inductive Op where
  | createNode (type : String) (position : OptPos) (data : JObj)
  | deleteNode (nodeId : String)
  | createEdge (sourceId targetId : String) (options : EdgeOptions)
  | deleteEdge (edgeId : String)

/-- Apply one operation (discarding the returned id). -/
def applyOp (s : SwanState) (op : Op) : SwanState :=
  match op with
  | Op.createNode t p d => (createNode s t p d).2
  | Op.deleteNode i => deleteNode s i
  | Op.createEdge a b o => (createEdge s a b o).2
  | Op.deleteEdge i => deleteEdge s i

/-- Run a sequence of operations. -/
def runOps (s : SwanState) (ops : List Op) : SwanState :=
  ops.foldl applyOp s

/-! ### Derived store views and the reachable-state invariant -/

/-- The node ids of the store, in insertion order. -/
def nodeIds (s : SwanState) : List String := s.nodes.map (fun n => n.id)

/-- The edge ids of the store, in insertion order. -/
def edgeIds (s : SwanState) : List String := s.edges.map (fun e => e.id)

/-- Ids of the edges of `edges` whose target is `nid`, in store order. -/
def inEdges (edges : List Edge) (nid : String) : List String :=
  (edges.filter (fun e => e.target = nid)).map (fun e => e.id)

/-- Ids of the edges of `edges` whose source is `nid`, in store order. -/
def outEdges (edges : List Edge) (nid : String) : List String :=
  (edges.filter (fun e => e.source = nid)).map (fun e => e.id)

/-- The adjacency cache derived from scratch from the node and edge stores. -/
def cacheOf (s : SwanState) : List (String × CacheEntry) :=
  s.nodes.map (fun n =>
    (n.id, CacheEntry.mk (inEdges s.edges n.id) (outEdges s.edges n.id)))

/-- `` `node-${m}` ``. -/
def nodeIdOf (m : ℕ) : String := "node-" ++ Nat.repr m

/-- `` `edge-${m}` ``. -/
def edgeIdOf (m : ℕ) : String := "edge-" ++ Nat.repr m

/-- Invariant of every editor state reachable through the store operations:
well-formed configuration objects, unique node/edge ids and ordered edge
pairs, live edge endpoints, counter-bounded ids, an adjacency cache that
agrees exactly with the one derivable from the stores, and node data / edge
style objects closed under re-merging the defaults. -/
def StoreInv (s : SwanState) : Prop :=
  (s.options.nodeDefaults.map Prod.fst).Nodup ∧
  (s.options.edgeStyle.map Prod.fst).Nodup ∧
  (nodeIds s).Nodup ∧
  (edgeIds s).Nodup ∧
  (s.edges.map (fun e => (e.source, e.target))).Nodup ∧
  (∀ e ∈ s.edges, e.source ∈ nodeIds s ∧ e.target ∈ nodeIds s) ∧
  (∀ n ∈ s.nodes, n.id ∈ (List.range s.nodeIdCounter).map nodeIdOf) ∧
  (∀ e ∈ s.edges, e.id ∈ (List.range s.edgeIdCounter).map edgeIdOf) ∧
  s.connectionCache = cacheOf s ∧
  (∀ n ∈ s.nodes, n.data = spreadMerge s.options.nodeDefaults n.data) ∧
  (∀ e ∈ s.edges, e.style = spreadMerge s.options.edgeStyle e.style)

/-! ### `loadWorkflowData` characterization -/

/-- The node that importing `nd` creates when the counter is at `c` and both
coordinates are supplied and nonzero. -/
def importedNode (opts : Options) (c : ℕ) (nd : DocNode) : Node :=
  { id := nodeIdOf c, type := nd.type,
    position := { x := nd.position.x.getD 0, y := nd.position.y.getD 0 },
    data := spreadMerge opts.nodeDefaults nd.data }

/-- The nodes created for a document node list starting at counter `c`. -/
def importedNodes (opts : Options) (c : ℕ) : List DocNode → List Node
  | [] => []
  | nd :: rest => importedNode opts c nd :: importedNodes opts (c + 1) rest

/-- The id-remapping entries created for a document node list. -/
def importedIdMap (c : ℕ) : List DocNode → List (String × String)
  | [] => []
  | nd :: rest => (nd.id, nodeIdOf c) :: importedIdMap (c + 1) rest

/-- The edge that importing `ed` creates when the counter is at `c`. -/
def importedEdge (opts : Options) (c : ℕ) (idMap : List (String × String))
    (ed : DocEdge) : Edge :=
  { id := edgeIdOf c, source := (mapGet idMap ed.source).getD "",
    target := (mapGet idMap ed.target).getD "",
    style := spreadMerge opts.edgeStyle ed.style, data := ed.data }

/-- The edges created for a document edge list starting at counter `c`. -/
def importedEdges (opts : Options) (c : ℕ) (idMap : List (String × String)) :
    List DocEdge → List Edge
  | [] => []
  | ed :: rest => importedEdge opts c idMap ed ::
      importedEdges opts (c + 1) idMap rest

/-- The document node that `getWorkflowData` writes for a store node. -/
def exportNode (n : Node) : DocNode :=
  { id := n.id, type := n.type,
    position := { x := some n.position.x, y := some n.position.y },
    data := n.data }

/-- The document edge that `getWorkflowData` writes for a store edge. -/
def exportEdge (e : Edge) : DocEdge :=
  { id := e.id, source := e.source, target := e.target,
    style := e.style, data := e.data }

/-- The node-creating fold of `loadWorkflowData`, named. -/
def loadNodesAcc (t : SwanState) (ds : List DocNode) :
    SwanState × List (String × String) :=
  ds.foldl
    (fun (acc : SwanState × List (String × String)) (nodeData : DocNode) =>
      let r := createNode acc.1 nodeData.type nodeData.position nodeData.data
      (r.2, mapSet acc.2 nodeData.id r.1)) (t, [])

/-- The edge-creating fold of `loadWorkflowData`, named. -/
def loadEdgesState (t : SwanState) (idMap : List (String × String))
    (es : List DocEdge) : SwanState :=
  es.foldl (fun s2 edgeData =>
    match mapGet idMap edgeData.source, mapGet idMap edgeData.target with
    | some sourceId, some targetId =>
      if sourceId ≠ "" ∧ targetId ≠ "" then
        (createEdge s2 sourceId targetId
          { style := some edgeData.style, data := some edgeData.data }).2
      else s2
    | _, _ => s2) t

/-! ### Concrete states used to instantiate the claims -/

/-- A store holding one node `node-1`. -/
def oneNodeState : SwanState :=
  { options := defaultOptions,
    nodes := [{ id := "node-1", type := "default",
                position := { x := 10, y := 20 },
                data := defaultNodeDefaults }],
    edges := [], selectedNodes := [],
    connectionCache := [("node-1", CacheEntry.mk [] [])],
    dirtyNodes := [], nodeIdCounter := 2, edgeIdCounter := 1,
    clipboard := none, dragState := none, rand := fun _ => 0, randIdx := 0 }

/-- A store holding two unconnected nodes. -/
def twoNodeState : SwanState :=
  { options := defaultOptions,
    nodes := [{ id := "node-1", type := "default",
                position := { x := 10, y := 20 },
                data := defaultNodeDefaults },
              { id := "node-2", type := "default",
                position := { x := 30, y := 40 },
                data := defaultNodeDefaults }],
    edges := [], selectedNodes := [],
    connectionCache := [("node-1", CacheEntry.mk [] []),
                        ("node-2", CacheEntry.mk [] [])],
    dirtyNodes := [], nodeIdCounter := 3, edgeIdCounter := 1,
    clipboard := none, dragState := none, rand := fun _ => 0, randIdx := 0 }

/-- Two nodes joined by the edge `node-1 → node-2`. -/
def connectedState : SwanState :=
  { options := defaultOptions,
    nodes := [{ id := "node-1", type := "default",
                position := { x := 10, y := 20 },
                data := defaultNodeDefaults },
              { id := "node-2", type := "default",
                position := { x := 30, y := 40 },
                data := defaultNodeDefaults }],
    edges := [{ id := "edge-1", source := "node-1", target := "node-2",
                style := defaultEdgeStyle, data := [] }],
    selectedNodes := [],
    connectionCache := [("node-1", CacheEntry.mk [] ["edge-1"]),
                        ("node-2", CacheEntry.mk ["edge-1"] [])],
    dirtyNodes := [], nodeIdCounter := 3, edgeIdCounter := 2,
    clipboard := none, dragState := none, rand := fun _ => 0, randIdx := 0 }

/-- Two nodes joined by the reversed edge `node-2 → node-1`. -/
def reversedState : SwanState :=
  { options := defaultOptions,
    nodes := [{ id := "node-1", type := "default",
                position := { x := 10, y := 20 },
                data := defaultNodeDefaults },
              { id := "node-2", type := "default",
                position := { x := 30, y := 40 },
                data := defaultNodeDefaults }],
    edges := [{ id := "edge-1", source := "node-2", target := "node-1",
                style := defaultEdgeStyle, data := [] }],
    selectedNodes := [],
    connectionCache := [("node-1", CacheEntry.mk ["edge-1"] []),
                        ("node-2", CacheEntry.mk [] ["edge-1"])],
    dirtyNodes := [], nodeIdCounter := 3, edgeIdCounter := 2,
    clipboard := none, dragState := none, rand := fun _ => 0, randIdx := 0 }

/-- One node whose supplied x coordinate is exactly 0. -/
def zeroXState : SwanState :=
  { options := defaultOptions,
    nodes := [{ id := "node-1", type := "default",
                position := { x := 0, y := 5 },
                data := defaultNodeDefaults }],
    edges := [], selectedNodes := [],
    connectionCache := [("node-1", CacheEntry.mk [] [])],
    dirtyNodes := [], nodeIdCounter := 2, edgeIdCounter := 1,
    clipboard := none, dragState := none, rand := fun _ => 0, randIdx := 0 }

/-- Two nodes mid-drag: `node-1` sits at its recorded start position,
`node-2` does not. -/
def dragEndState : SwanState :=
  { options := defaultOptions,
    nodes := [{ id := "node-1", type := "default",
                position := { x := 10, y := 20 },
                data := defaultNodeDefaults },
              { id := "node-2", type := "default",
                position := { x := 30, y := 40 },
                data := defaultNodeDefaults }],
    edges := [], selectedNodes := [],
    connectionCache := [("node-1", CacheEntry.mk [] []),
                        ("node-2", CacheEntry.mk [] [])],
    dirtyNodes := [], nodeIdCounter := 3, edgeIdCounter := 1,
    clipboard := none,
    dragState := some { nodes := ["node-1", "node-2"],
                        startPositions := [("node-1", { x := 10, y := 20 }),
                                           ("node-2", { x := 31, y := 40 })] },
    rand := fun _ => 0, randIdx := 0 }

instance StoreInv.instDecidable (s : SwanState) : Decidable (StoreInv s) := by
  unfold StoreInv
  exact inferInstance

/-- `Nat.toDigitsCore` prepends its output to the accumulator. -/
theorem toDigitsCore_acc (b : ℕ) :
    ∀ (f n : ℕ) (acc : List Char),
      Nat.toDigitsCore b f n acc = Nat.toDigitsCore b f n [] ++ acc := by
  intro f
  induction f with
  | zero => intro n acc; simp [Nat.toDigitsCore]
  | succ f ih =>
    intro n acc
    simp only [Nat.toDigitsCore]
    by_cases h : n / b = 0
    · simp [h]
    · simp only [h, if_false]
      rw [ih (n / b) (Nat.digitChar (n % b) :: acc),
        ih (n / b) [Nat.digitChar (n % b)]]
      simp

/-- The fuel of `Nat.toDigitsCore` is irrelevant once it exceeds `n`. -/
theorem toDigitsCore_fuel (b : ℕ) (hb : 2 ≤ b) :
    ∀ (f₁ f₂ n : ℕ) (acc : List Char), n < f₁ → n < f₂ →
      Nat.toDigitsCore b f₁ n acc = Nat.toDigitsCore b f₂ n acc := by
  intro f₁
  induction f₁ with
  | zero => intro f₂ n acc h1 h2; omega
  | succ f ih =>
    intro f₂ n acc h1 h2
    cases f₂ with
    | zero => omega
    | succ g =>
      simp only [Nat.toDigitsCore]
      by_cases h : n / b = 0
      · simp [h]
      · simp only [h, if_false]
        have hn : 0 < n := by
          rcases Nat.eq_zero_or_pos n with h0 | h0
          · exact absurd (by simp [h0]) h
          · exact h0
        have hdiv : n / b < n := Nat.div_lt_self hn (by omega)
        exact ih g (n / b) _ (by omega) (by omega)

/-- One unfolding step of `Nat.toDigits` at base 10. -/
theorem toDigits_step (n : ℕ) :
    Nat.toDigits 10 n =
      if n < 10 then [Nat.digitChar n]
      else Nat.toDigits 10 (n / 10) ++ [Nat.digitChar (n % 10)] := by
  by_cases h : n < 10
  · have hd : n / 10 = 0 := Nat.div_eq_of_lt h
    have hm : n % 10 = n := Nat.mod_eq_of_lt h
    simp [Nat.toDigits, Nat.toDigitsCore, hd, hm, h]
  · have hd : n / 10 ≠ 0 := by
      intro h0
      exact h ((Nat.div_eq_zero_iff (by norm_num)).mp h0)
    have hn : 0 < n := by omega
    have hdiv : n / 10 < n := Nat.div_lt_self hn (by norm_num)
    simp only [Nat.toDigits, Nat.toDigitsCore, hd, if_false, h]
    rw [toDigitsCore_acc]
    congr 1
    exact toDigitsCore_fuel 10 (by norm_num) n (n / 10 + 1) (n / 10) []
      hdiv (Nat.lt_succ_self _)

/-- Reading a decimal digit character back as a number. -/
theorem digitChar_toNat (m : ℕ) (hm : m < 10) :
    (Nat.digitChar m).toNat - 48 = m := by
  interval_cases m <;> rfl

/-- Decimal digit strings parse back to the number they print
(`Nat.toDigits 10` is injective via this left inverse). -/
theorem digitsToNat_toDigits (n : ℕ) :
    (Nat.toDigits 10 n).foldl (fun acc c => 10 * acc + (c.toNat - 48)) 0 = n := by
  induction n using Nat.strong_induction_on with
  | _ n ih =>
    rw [toDigits_step]
    by_cases h : n < 10
    · simp [h, digitChar_toNat n h]
    · have hn : 0 < n := by omega
      have hdiv : n / 10 < n := Nat.div_lt_self hn (by norm_num)
      simp only [h, if_false, List.foldl_append, ih (n / 10) hdiv, List.foldl]
      rw [digitChar_toNat (n % 10) (Nat.mod_lt n (by norm_num))]
      omega

/-- `Nat.repr` is injective. -/
theorem nat_repr_injective : Function.Injective Nat.repr := by
  intro a b h
  have hdig : Nat.toDigits 10 a = Nat.toDigits 10 b := by
    have := congrArg String.data h
    simpa [Nat.repr, List.asString] using this
  have ha := digitsToNat_toDigits a
  have hb := digitsToNat_toDigits b
  rw [hdig, hb] at ha
  exact ha.symm

/-- Prefixed decimal ids are injective in the counter value. -/
theorem prefixed_repr_inj (p : String) {a b : ℕ}
    (h : p ++ Nat.repr a = p ++ Nat.repr b) : a = b := by
  apply nat_repr_injective
  have hd := congrArg String.data h
  simp only [String.data_append] at hd
  exact String.ext (List.append_cancel_left hd)

/-! ### Association-list and set-list lemmas -/

theorem mapGet_isSome_iff {α : Type} (m : List (String × α)) (k : String) :
    (mapGet m k).isSome ↔ k ∈ m.map Prod.fst := by
  induction m with
  | nil => simp [mapGet]
  | cons p rest ih =>
    rcases p with ⟨k', v⟩
    simp only [mapGet, List.map_cons, List.mem_cons]
    by_cases h : k' = k
    · simp [h]
    · simp only [if_neg h, ih]
      constructor
      · exact fun hk => Or.inr hk
      · rintro (rfl | hk)
        · exact absurd rfl h
        · exact hk

theorem mapGet_append_left {α : Type} {m₁ : List (String × α)}
    (m₂ : List (String × α)) {k : String} {v : α} (h : mapGet m₁ k = some v) :
    mapGet (m₁ ++ m₂) k = some v := by
  induction m₁ with
  | nil => simp [mapGet] at h
  | cons p rest ih =>
    by_cases hp : p.1 = k
    · simp only [mapGet, if_pos hp, List.cons_append] at h ⊢
      exact h
    · simp only [mapGet, if_neg hp, List.cons_append] at h ⊢
      exact ih h

theorem mapGet_append_right {α : Type} {m₁ : List (String × α)}
    (m₂ : List (String × α)) {k : String} (h : mapGet m₁ k = none) :
    mapGet (m₁ ++ m₂) k = mapGet m₂ k := by
  induction m₁ with
  | nil => simp [mapGet]
  | cons p rest ih =>
    by_cases hp : p.1 = k
    · simp only [mapGet, if_pos hp] at h
      exact absurd h (by simp)
    · simp only [mapGet, if_neg hp, List.cons_append] at h ⊢
      exact ih h

theorem mapGet_keyed {α β : Type} (l : List α) (key : α → String) (f : α → β)
    (k : String) :
    mapGet (l.map (fun x => (key x, f x))) k =
      (l.find? (fun x => key x = k)).map f := by
  induction l with
  | nil => simp [mapGet]
  | cons x rest ih =>
    by_cases h : key x = k
    · simp [mapGet, h]
    · have hfind : List.find? (fun y => decide (key y = k)) (x :: rest) =
          List.find? (fun y => decide (key y = k)) rest :=
        List.find?_cons_of_neg _ (by simp [h])
      simp only [List.map_cons, mapGet, if_neg h, ih, hfind]

theorem mapUpdate_keyed {α β : Type} (l : List α) (key : α → String)
    (f : α → β) (k : String) (g : β → β) :
    mapUpdate (l.map (fun x => (key x, f x))) k g =
      l.map (fun x => (key x, if key x = k then g (f x) else f x)) := by
  unfold mapUpdate
  rw [List.map_map]
  apply List.map_congr_left
  intro x _
  by_cases h : key x = k <;> simp [h]

theorem mapUpdate_keys {α : Type} (m : List (String × α)) (k : String)
    (f : α → α) : (mapUpdate m k f).map Prod.fst = m.map Prod.fst := by
  unfold mapUpdate
  rw [List.map_map]
  apply List.map_congr_left
  intro p _
  by_cases h : p.1 = k <;> simp [h]

theorem mapGet_of_nodup {α : Type} {m : List (String × α)}
    (hm : (m.map Prod.fst).Nodup) {k : String} {v : α} (hmem : (k, v) ∈ m) :
    mapGet m k = some v := by
  induction m with
  | nil => simp at hmem
  | cons p rest ih =>
    simp only [List.map_cons, List.nodup_cons] at hm
    rcases List.mem_cons.mp hmem with h | h
    · simp [← h, mapGet]
    · have hk : k ∈ rest.map Prod.fst :=
        List.mem_map.mpr ⟨(k, v), h, rfl⟩
      have hne : p.1 ≠ k := fun he => hm.1 (he ▸ hk)
      simp only [mapGet, if_neg hne]
      exact ih hm.2 h

theorem find?_self_of_nodup {α : Type} {l : List α} (key : α → String)
    (h : (l.map key).Nodup) {x : α} (hx : x ∈ l) :
    l.find? (fun y => key y = key x) = some x := by
  induction l with
  | nil => simp at hx
  | cons a rest ih =>
    simp only [List.map_cons, List.nodup_cons] at h
    rcases List.mem_cons.mp hx with he | hx
    · subst he
      simp
    · have hk : key x ∈ rest.map key := List.mem_map.mpr ⟨x, hx, rfl⟩
      have hne : key a ≠ key x := fun he => h.1 (he ▸ hk)
      rw [List.find?_cons_of_neg _ (by simpa using hne)]
      exact ih h.2 hx

theorem map_filter_comm {α β : Type} (l : List α) (f : α → β) (p : β → Bool) :
    (l.filter (fun x => p (f x))).map f = (l.map f).filter p := by
  induction l with
  | nil => rfl
  | cons x rest ih =>
    by_cases h : p (f x) <;> simp [List.filter_cons, h, ih]

theorem setAdd_of_not_mem {l : List String} {x : String} (h : x ∉ l) :
    setAdd l x = l ++ [x] := by
  simp [setAdd, h]

/-! ### Spread-merge lemmas -/

theorem mapGet_spreadMerge_left {a : JObj} (b : JObj)
    (ha : (a.map Prod.fst).Nodup) {p : String × JVal} (hp : p ∈ a) :
    mapGet (spreadMerge a b) p.1 = some ((mapGet b p.1).getD p.2) := by
  have h1 : mapGet (a.map (fun q => (q.1, (mapGet b q.1).getD q.2))) p.1 =
      some ((mapGet b p.1).getD p.2) := by
    rw [mapGet_keyed a (fun q => q.1) (fun q => (mapGet b q.1).getD q.2) p.1,
      find?_self_of_nodup (fun q => q.1) ha hp]
    rfl
  unfold spreadMerge
  exact mapGet_append_left _ h1

theorem spreadMerge_idem (a b : JObj) (ha : (a.map Prod.fst).Nodup) :
    spreadMerge a (spreadMerge a b) = spreadMerge a b := by
  have part1 : a.map (fun p => (p.1, (mapGet (spreadMerge a b) p.1).getD p.2)) =
      a.map (fun p => (p.1, (mapGet b p.1).getD p.2)) := by
    apply List.map_congr_left
    intro p hp
    rw [mapGet_spreadMerge_left b ha hp]
    simp
  have part2 : (spreadMerge a b).filter (fun p => (mapGet a p.1).isNone) =
      b.filter (fun p => (mapGet a p.1).isNone) := by
    conv_lhs => rw [spreadMerge]
    rw [List.filter_append]
    have h1 : (a.map (fun p => (p.1, (mapGet b p.1).getD p.2))).filter
        (fun p => (mapGet a p.1).isNone) = [] := by
      rw [List.filter_eq_nil_iff]
      intro q hq
      rcases List.mem_map.mp hq with ⟨p, hp, rfl⟩
      have hmem : p.1 ∈ a.map Prod.fst := List.mem_map.mpr ⟨p, hp, rfl⟩
      have hs : (mapGet a p.1).isSome := (mapGet_isSome_iff a p.1).mpr hmem
      cases hmg : mapGet a p.1 with
      | none => rw [hmg] at hs; simp at hs
      | some w => simp [hmg]
    have h2 : (b.filter (fun p => (mapGet a p.1).isNone)).filter
        (fun p => (mapGet a p.1).isNone) =
        b.filter (fun p => (mapGet a p.1).isNone) := by
      rw [List.filter_eq_self]
      intro q hq
      rw [List.mem_filter] at hq
      exact hq.2
    rw [h1, h2, List.nil_append]
  conv_lhs => rw [spreadMerge]
  rw [part1, part2]
  rfl

theorem nodeIdOf_inj {a b : ℕ} (h : nodeIdOf a = nodeIdOf b) : a = b :=
  prefixed_repr_inj "node-" h

theorem edgeIdOf_inj {a b : ℕ} (h : edgeIdOf a = edgeIdOf b) : a = b :=
  prefixed_repr_inj "edge-" h

theorem fresh_of_bounded {f : ℕ → String} (hf : Function.Injective f)
    {c : ℕ} {ids : List String}
    (h : ∀ x ∈ ids, x ∈ (List.range c).map f) : f c ∉ ids := by
  intro hmem
  rcases List.mem_map.mp (h _ hmem) with ⟨m, hm, hfm⟩
  have he : m = c := hf hfm
  have hlt : m < c := List.mem_range.mp hm
  omega

theorem mem_range_map_succ {f : ℕ → String} {c : ℕ} {x : String}
    (h : x ∈ (List.range c).map f) : x ∈ (List.range (c + 1)).map f := by
  rcases List.mem_map.mp h with ⟨m, hm, rfl⟩
  exact List.mem_map.mpr
    ⟨m, List.mem_range.mpr (Nat.lt_succ_of_lt (List.mem_range.mp hm)), rfl⟩

theorem self_mem_range_map_succ (f : ℕ → String) (c : ℕ) :
    f c ∈ (List.range (c + 1)).map f :=
  List.mem_map.mpr ⟨c, List.mem_range.mpr (Nat.lt_succ_self c), rfl⟩

theorem findNode_isSome_iff (s : SwanState) (nid : String) :
    (findNode s nid).isSome ↔ nid ∈ nodeIds s := by
  unfold findNode nodeIds
  rw [List.find?_isSome]
  constructor
  · rintro ⟨n, hn, hp⟩
    exact List.mem_map.mpr ⟨n, hn, by simpa using hp⟩
  · rintro hmem
    rcases List.mem_map.mp hmem with ⟨n, hn, he⟩
    exact ⟨n, hn, by simpa using he⟩

/-! ### Edge-view lemmas -/

theorem filter_comm_aux {α : Type} (l : List α) (p q : α → Bool) :
    (l.filter p).filter q = (l.filter q).filter p := by
  rw [List.filter_filter, List.filter_filter]
  congr 1
  funext a
  rw [Bool.and_comm]

theorem inEdges_filter_ne (edges : List Edge) (nid eid : String) :
    inEdges (edges.filter (fun e => e.id ≠ eid)) nid =
      (inEdges edges nid).filter (fun x => x ≠ eid) := by
  unfold inEdges
  rw [← map_filter_comm (edges.filter (fun e => e.target = nid))
    (fun e => e.id) (fun x => x ≠ eid)]
  rw [filter_comm_aux]

theorem outEdges_filter_ne (edges : List Edge) (nid eid : String) :
    outEdges (edges.filter (fun e => e.id ≠ eid)) nid =
      (outEdges edges nid).filter (fun x => x ≠ eid) := by
  unfold outEdges
  rw [← map_filter_comm (edges.filter (fun e => e.source = nid))
    (fun e => e.id) (fun x => x ≠ eid)]
  rw [filter_comm_aux]

theorem mem_inEdges_iff {edges : List Edge}
    (hn : (edges.map (fun e => e.id)).Nodup) {e : Edge} (he : e ∈ edges)
    (nid : String) : e.id ∈ inEdges edges nid ↔ e.target = nid := by
  constructor
  · intro hmem
    rcases List.mem_map.mp hmem with ⟨e', he', hid⟩
    have he'm := (List.mem_filter.mp he').1
    have hpred := (List.mem_filter.mp he').2
    have : e' = e := List.inj_on_of_nodup_map hn he'm he hid
    subst this
    simpa using hpred
  · intro ht
    exact List.mem_map.mpr ⟨e, List.mem_filter.mpr ⟨he, by simpa using ht⟩, rfl⟩

theorem mem_outEdges_iff {edges : List Edge}
    (hn : (edges.map (fun e => e.id)).Nodup) {e : Edge} (he : e ∈ edges)
    (nid : String) : e.id ∈ outEdges edges nid ↔ e.source = nid := by
  constructor
  · intro hmem
    rcases List.mem_map.mp hmem with ⟨e', he', hid⟩
    have he'm := (List.mem_filter.mp he').1
    have hpred := (List.mem_filter.mp he').2
    have : e' = e := List.inj_on_of_nodup_map hn he'm he hid
    subst this
    simpa using hpred
  · intro ht
    exact List.mem_map.mpr ⟨e, List.mem_filter.mpr ⟨he, by simpa using ht⟩, rfl⟩

theorem cacheOf_keys (s : SwanState) :
    (cacheOf s).map Prod.fst = nodeIds s := by
  unfold cacheOf nodeIds
  rw [List.map_map]
  rfl

theorem findEdge_mem {s : SwanState} {i : String} {e : Edge}
    (h : findEdge s i = some e) : e ∈ s.edges ∧ e.id = i := by
  refine ⟨List.mem_of_find?_eq_some h, ?_⟩
  have := List.find?_some h
  simpa using this

theorem findNode_mem {s : SwanState} {i : String} {n : Node}
    (h : findNode s i = some n) : n ∈ s.nodes ∧ n.id = i := by
  refine ⟨List.mem_of_find?_eq_some h, ?_⟩
  have := List.find?_some h
  simpa using this

/-! ### `deleteEdge` lemmas -/

theorem deleteEdge_nodes (s : SwanState) (i : String) :
    (deleteEdge s i).nodes = s.nodes := by
  unfold deleteEdge updateCacheOnEdgeDelete
  cases findEdge s i <;> simp

theorem deleteEdge_selectedNodes (s : SwanState) (i : String) :
    (deleteEdge s i).selectedNodes = s.selectedNodes := by
  unfold deleteEdge updateCacheOnEdgeDelete
  cases findEdge s i <;> simp

theorem deleteEdge_options (s : SwanState) (i : String) :
    (deleteEdge s i).options = s.options := by
  unfold deleteEdge updateCacheOnEdgeDelete
  cases findEdge s i <;> simp

theorem deleteEdge_nodeIdCounter (s : SwanState) (i : String) :
    (deleteEdge s i).nodeIdCounter = s.nodeIdCounter := by
  unfold deleteEdge updateCacheOnEdgeDelete
  cases findEdge s i <;> simp

theorem deleteEdge_edgeIdCounter (s : SwanState) (i : String) :
    (deleteEdge s i).edgeIdCounter = s.edgeIdCounter := by
  unfold deleteEdge updateCacheOnEdgeDelete
  cases findEdge s i <;> simp

theorem deleteEdge_clipboard (s : SwanState) (i : String) :
    (deleteEdge s i).clipboard = s.clipboard := by
  unfold deleteEdge updateCacheOnEdgeDelete
  cases findEdge s i <;> simp

theorem deleteEdge_dragState (s : SwanState) (i : String) :
    (deleteEdge s i).dragState = s.dragState := by
  unfold deleteEdge updateCacheOnEdgeDelete
  cases findEdge s i <;> simp

theorem deleteEdge_rand (s : SwanState) (i : String) :
    (deleteEdge s i).rand = s.rand := by
  unfold deleteEdge updateCacheOnEdgeDelete
  cases findEdge s i <;> simp

theorem deleteEdge_randIdx (s : SwanState) (i : String) :
    (deleteEdge s i).randIdx = s.randIdx := by
  unfold deleteEdge updateCacheOnEdgeDelete
  cases findEdge s i <;> simp

theorem deleteEdge_edges (s : SwanState) (i : String) :
    (deleteEdge s i).edges = s.edges.filter (fun e => e.id ≠ i) := by
  unfold deleteEdge
  cases h : findEdge s i with
  | none =>
    have hall := List.find?_eq_none.mp h
    have h2 : s.edges.filter (fun e => e.id ≠ i) = s.edges := by
      rw [List.filter_eq_self]
      intro e he
      simpa using hall e he
    exact h2.symm
  | some e => simp [updateCacheOnEdgeDelete]

theorem mapUpdate_cacheOf (s : SwanState) (k : String)
    (g : CacheEntry → CacheEntry) :
    mapUpdate (cacheOf s) k g = s.nodes.map (fun n => (n.id,
      if n.id = k then
        g (CacheEntry.mk (inEdges s.edges n.id) (outEdges s.edges n.id))
      else CacheEntry.mk (inEdges s.edges n.id) (outEdges s.edges n.id))) := by
  unfold cacheOf
  exact mapUpdate_keyed s.nodes (fun n => n.id)
    (fun n => CacheEntry.mk (inEdges s.edges n.id) (outEdges s.edges n.id)) k g

theorem inEdges_filter_id_eq {edges : List Edge}
    (h4 : (edges.map (fun e => e.id)).Nodup) {e : Edge}
    (hmem : e ∈ edges) {nid : String} (hne : e.target ≠ nid) :
    (inEdges edges nid).filter (fun x => x ≠ e.id) = inEdges edges nid := by
  rw [List.filter_eq_self]
  intro x hx
  rw [decide_eq_true_eq]
  intro hxe
  subst hxe
  exact hne ((mem_inEdges_iff h4 hmem nid).mp hx)

theorem outEdges_filter_id_eq {edges : List Edge}
    (h4 : (edges.map (fun e => e.id)).Nodup) {e : Edge}
    (hmem : e ∈ edges) {nid : String} (hne : e.source ≠ nid) :
    (outEdges edges nid).filter (fun x => x ≠ e.id) = outEdges edges nid := by
  rw [List.filter_eq_self]
  intro x hx
  rw [decide_eq_true_eq]
  intro hxe
  subst hxe
  exact hne ((mem_outEdges_iff h4 hmem nid).mp hx)

theorem deleteEdge_cache {s : SwanState} (h : StoreInv s) (i : String) :
    (deleteEdge s i).connectionCache = cacheOf (deleteEdge s i) := by
  obtain ⟨h1, h2, h3, h4, h5, h6, h7, h8, h9, h10, h11⟩ := h
  have h4' : (s.edges.map (fun e => e.id)).Nodup := h4
  have hR : cacheOf (deleteEdge s i) = s.nodes.map (fun n => (n.id,
      CacheEntry.mk ((inEdges s.edges n.id).filter (fun x => x ≠ i))
        ((outEdges s.edges n.id).filter (fun x => x ≠ i)))) := by
    unfold cacheOf
    rw [deleteEdge_nodes, deleteEdge_edges]
    apply List.map_congr_left
    intro n _
    rw [inEdges_filter_ne, outEdges_filter_ne]
  rw [hR]
  unfold deleteEdge
  cases hfind : findEdge s i with
  | none =>
    have hall := List.find?_eq_none.mp hfind
    have hnotmem : ∀ nid, ∀ x ∈ inEdges s.edges nid ++ outEdges s.edges nid,
        x ≠ i := by
      intro nid x hx hxe
      subst hxe
      rcases List.mem_append.mp hx with hx | hx
      · rcases List.mem_map.mp hx with ⟨e, he, hid⟩
        have := hall e (List.mem_filter.mp he).1
        rw [← hid] at this
        simp at this
      · rcases List.mem_map.mp hx with ⟨e, he, hid⟩
        have := hall e (List.mem_filter.mp he).1
        rw [← hid] at this
        simp at this
    rw [h9]
    unfold cacheOf
    apply List.map_congr_left
    intro n _
    have hni : (inEdges s.edges n.id).filter (fun x => x ≠ i) =
        inEdges s.edges n.id := by
      rw [List.filter_eq_self]
      intro x hx
      rw [decide_eq_true_eq]
      exact hnotmem n.id x (List.mem_append.mpr (Or.inl hx))
    have hno : (outEdges s.edges n.id).filter (fun x => x ≠ i) =
        outEdges s.edges n.id := by
      rw [List.filter_eq_self]
      intro x hx
      rw [decide_eq_true_eq]
      exact hnotmem n.id x (List.mem_append.mpr (Or.inr hx))
    rw [hni, hno]
  | some e =>
    obtain ⟨hmem, hid⟩ := findEdge_mem hfind
    subst hid
    have hsrcSome : (mapGet s.connectionCache e.source).isSome := by
      rw [h9, mapGet_isSome_iff, cacheOf_keys]
      exact (h6 e hmem).1
    have htgtSome : (mapGet s.connectionCache e.target).isSome := by
      rw [h9, mapGet_isSome_iff, cacheOf_keys]
      exact (h6 e hmem).2
    rcases Option.isSome_iff_exists.mp hsrcSome with ⟨cs, hcs⟩
    rcases Option.isSome_iff_exists.mp htgtSome with ⟨ct, hct⟩
    have hstep : (updateCacheOnEdgeDelete s e).connectionCache =
        mapUpdate (mapUpdate s.connectionCache e.source
            (fun c => { c with
              outputs := c.outputs.filter (fun i => i ≠ e.id) }))
          e.target
          (fun c => { c with
            inputs := c.inputs.filter (fun i => i ≠ e.id) }) := by
      simp only [updateCacheOnEdgeDelete, hcs, hct]
    show (updateCacheOnEdgeDelete s e).connectionCache = _
    rw [hstep, h9, mapUpdate_cacheOf, mapUpdate_keyed]
    apply List.map_congr_left
    intro n _
    simp only [Prod.mk.injEq, true_and]
    by_cases hS : n.id = e.source <;> by_cases hT : n.id = e.target
    · rw [if_pos hT, if_pos hS]
    · rw [if_neg hT, if_pos hS,
        inEdges_filter_id_eq h4' hmem (fun he => hT he.symm)]
    · rw [if_pos hT, if_neg hS,
        outEdges_filter_id_eq h4' hmem (fun he => hS he.symm)]
    · rw [if_neg hT, if_neg hS,
        inEdges_filter_id_eq h4' hmem (fun he => hT he.symm),
        outEdges_filter_id_eq h4' hmem (fun he => hS he.symm)]

theorem StoreInv_deleteEdge {s : SwanState} (h : StoreInv s) (i : String) :
    StoreInv (deleteEdge s i) := by
  have hcache := deleteEdge_cache h i
  obtain ⟨h1, h2, h3, h4, h5, h6, h7, h8, h9, h10, h11⟩ := h
  have hnodes := deleteEdge_nodes s i
  have hedges := deleteEdge_edges s i
  have hsub : (deleteEdge s i).edges.Sublist s.edges := by
    rw [hedges]
    exact List.filter_sublist _
  have hmemsub : ∀ e ∈ (deleteEdge s i).edges, e ∈ s.edges := fun e he =>
    hsub.mem he
  refine ⟨?_, ?_, ?_, ?_, ?_, ?_, ?_, ?_, ?_, ?_, ?_⟩
  · rw [deleteEdge_options]; exact h1
  · rw [deleteEdge_options]; exact h2
  · unfold nodeIds
    rw [hnodes]
    exact h3
  · have h4' : (s.edges.map (fun e => e.id)).Nodup := h4
    unfold edgeIds
    rw [hedges]
    exact (List.Sublist.map (fun (e : Edge) => e.id)
      (List.filter_sublist s.edges)).nodup h4'
  · rw [hedges]
    exact (List.Sublist.map (fun (e : Edge) => (e.source, e.target))
      (List.filter_sublist s.edges)).nodup h5
  · intro e he
    have := h6 e (hmemsub e he)
    unfold nodeIds
    rw [hnodes]
    exact this
  · intro n hn
    rw [hnodes] at hn
    rw [deleteEdge_nodeIdCounter]
    exact h7 n hn
  · intro e he
    rw [deleteEdge_edgeIdCounter]
    exact h8 e (hmemsub e he)
  · exact hcache
  · intro n hn
    rw [hnodes] at hn
    rw [deleteEdge_options]
    exact h10 n hn
  · intro e he
    rw [deleteEdge_options]
    exact h11 e (hmemsub e he)

/-! ### `createNode` lemmas -/

theorem createNode_spec (s : SwanState) (t : String) (p : OptPos) (d : JObj) :
    ∃ n : Node,
      (createNode s t p d).1 = nodeIdOf s.nodeIdCounter ∧
      n.id = nodeIdOf s.nodeIdCounter ∧
      n.type = t ∧
      n.data = spreadMerge s.options.nodeDefaults d ∧
      (createNode s t p d).2.options = s.options ∧
      (createNode s t p d).2.nodes = nodesSet s.nodes n ∧
      (createNode s t p d).2.edges = s.edges ∧
      (createNode s t p d).2.selectedNodes = s.selectedNodes ∧
      (createNode s t p d).2.connectionCache =
        (if (mapGet s.connectionCache (nodeIdOf s.nodeIdCounter)).isSome
         then s.connectionCache
         else s.connectionCache ++
           [(nodeIdOf s.nodeIdCounter, CacheEntry.mk [] [])]) ∧
      (createNode s t p d).2.nodeIdCounter = s.nodeIdCounter + 1 ∧
      (createNode s t p d).2.edgeIdCounter = s.edgeIdCounter ∧
      (∀ xv, p.x = some xv → xv ≠ 0 → n.position.x = xv) ∧
      (∀ yv, p.y = some yv → yv ≠ 0 → n.position.y = yv) ∧
      ((p.x = some 0 ∨ p.x = none) →
        n.position.x = s.rand s.randIdx * 400 + 100) ∧
      ((p.y = some 0 ∨ p.y = none) →
        n.position.y = s.rand s.randIdx * 300 + 100 ∨
        n.position.y = s.rand (s.randIdx + 1) * 300 + 100) := by
  rcases p with ⟨px, py⟩
  rcases px with _ | xv <;> rcases py with _ | yv
  · exact ⟨⟨nodeIdOf s.nodeIdCounter, t,
      ⟨s.rand s.randIdx * 400 + 100, s.rand (s.randIdx + 1) * 300 + 100⟩,
      spreadMerge s.options.nodeDefaults d⟩,
      by simp [createNode, nextRand, initNodeCache, nodeIdOf,
        apply_ite SwanState.connectionCache, apply_ite SwanState.options,
          apply_ite SwanState.nodes, apply_ite SwanState.edges,
          apply_ite SwanState.selectedNodes,
          apply_ite SwanState.nodeIdCounter,
          apply_ite SwanState.edgeIdCounter]⟩
  · by_cases hy : yv = 0
    · subst hy
      exact ⟨⟨nodeIdOf s.nodeIdCounter, t,
        ⟨s.rand s.randIdx * 400 + 100, s.rand (s.randIdx + 1) * 300 + 100⟩,
        spreadMerge s.options.nodeDefaults d⟩,
        by simp [createNode, nextRand, initNodeCache, nodeIdOf,
          apply_ite SwanState.connectionCache, apply_ite SwanState.options,
          apply_ite SwanState.nodes, apply_ite SwanState.edges,
          apply_ite SwanState.selectedNodes,
          apply_ite SwanState.nodeIdCounter,
          apply_ite SwanState.edgeIdCounter]⟩
    · exact ⟨⟨nodeIdOf s.nodeIdCounter, t,
        ⟨s.rand s.randIdx * 400 + 100, yv⟩,
        spreadMerge s.options.nodeDefaults d⟩,
        by simp [createNode, nextRand, initNodeCache, nodeIdOf, hy,
          apply_ite SwanState.connectionCache, apply_ite SwanState.options,
          apply_ite SwanState.nodes, apply_ite SwanState.edges,
          apply_ite SwanState.selectedNodes,
          apply_ite SwanState.nodeIdCounter,
          apply_ite SwanState.edgeIdCounter]⟩
  · by_cases hx : xv = 0
    · subst hx
      exact ⟨⟨nodeIdOf s.nodeIdCounter, t,
        ⟨s.rand s.randIdx * 400 + 100, s.rand (s.randIdx + 1) * 300 + 100⟩,
        spreadMerge s.options.nodeDefaults d⟩,
        by simp [createNode, nextRand, initNodeCache, nodeIdOf,
          apply_ite SwanState.connectionCache, apply_ite SwanState.options,
          apply_ite SwanState.nodes, apply_ite SwanState.edges,
          apply_ite SwanState.selectedNodes,
          apply_ite SwanState.nodeIdCounter,
          apply_ite SwanState.edgeIdCounter]⟩
    · exact ⟨⟨nodeIdOf s.nodeIdCounter, t,
        ⟨xv, s.rand s.randIdx * 300 + 100⟩,
        spreadMerge s.options.nodeDefaults d⟩,
        by simp [createNode, nextRand, initNodeCache, nodeIdOf, hx,
          apply_ite SwanState.connectionCache, apply_ite SwanState.options,
          apply_ite SwanState.nodes, apply_ite SwanState.edges,
          apply_ite SwanState.selectedNodes,
          apply_ite SwanState.nodeIdCounter,
          apply_ite SwanState.edgeIdCounter]⟩
  · by_cases hx : xv = 0 <;> by_cases hy : yv = 0
    · subst hx; subst hy
      exact ⟨⟨nodeIdOf s.nodeIdCounter, t,
        ⟨s.rand s.randIdx * 400 + 100, s.rand (s.randIdx + 1) * 300 + 100⟩,
        spreadMerge s.options.nodeDefaults d⟩,
        by simp [createNode, nextRand, initNodeCache, nodeIdOf,
          apply_ite SwanState.connectionCache, apply_ite SwanState.options,
          apply_ite SwanState.nodes, apply_ite SwanState.edges,
          apply_ite SwanState.selectedNodes,
          apply_ite SwanState.nodeIdCounter,
          apply_ite SwanState.edgeIdCounter]⟩
    · subst hx
      exact ⟨⟨nodeIdOf s.nodeIdCounter, t,
        ⟨s.rand s.randIdx * 400 + 100, yv⟩,
        spreadMerge s.options.nodeDefaults d⟩,
        by simp [createNode, nextRand, initNodeCache, nodeIdOf, hy,
          apply_ite SwanState.connectionCache, apply_ite SwanState.options,
          apply_ite SwanState.nodes, apply_ite SwanState.edges,
          apply_ite SwanState.selectedNodes,
          apply_ite SwanState.nodeIdCounter,
          apply_ite SwanState.edgeIdCounter]⟩
    · subst hy
      exact ⟨⟨nodeIdOf s.nodeIdCounter, t,
        ⟨xv, s.rand s.randIdx * 300 + 100⟩,
        spreadMerge s.options.nodeDefaults d⟩,
        by simp [createNode, nextRand, initNodeCache, nodeIdOf, hx,
          apply_ite SwanState.connectionCache, apply_ite SwanState.options,
          apply_ite SwanState.nodes, apply_ite SwanState.edges,
          apply_ite SwanState.selectedNodes,
          apply_ite SwanState.nodeIdCounter,
          apply_ite SwanState.edgeIdCounter]⟩
    · exact ⟨⟨nodeIdOf s.nodeIdCounter, t, ⟨xv, yv⟩,
        spreadMerge s.options.nodeDefaults d⟩,
        by simp [createNode, nextRand, initNodeCache, nodeIdOf, hx, hy,
          apply_ite SwanState.connectionCache, apply_ite SwanState.options,
          apply_ite SwanState.nodes, apply_ite SwanState.edges,
          apply_ite SwanState.selectedNodes,
          apply_ite SwanState.nodeIdCounter,
          apply_ite SwanState.edgeIdCounter]⟩

theorem nodesSet_fresh {l : List Node} {n : Node}
    (h : n.id ∉ l.map (fun m => m.id)) : nodesSet l n = l ++ [n] := by
  unfold nodesSet
  rw [if_neg]
  rw [List.find?_isSome]
  rintro ⟨m, hm, he⟩
  rw [decide_eq_true_eq] at he
  exact h (List.mem_map.mpr ⟨m, hm, he⟩)

theorem edgesSet_fresh {l : List Edge} {e : Edge}
    (h : e.id ∉ l.map (fun f => f.id)) : edgesSet l e = l ++ [e] := by
  unfold edgesSet
  rw [if_neg]
  rw [List.find?_isSome]
  rintro ⟨f, hf, he⟩
  rw [decide_eq_true_eq] at he
  exact h (List.mem_map.mpr ⟨f, hf, he⟩)

theorem inEdges_eq_nil {edges : List Edge} {nid : String}
    (h : ∀ e ∈ edges, e.target ≠ nid) : inEdges edges nid = [] := by
  unfold inEdges
  rw [List.filter_eq_nil_iff.mpr]
  · rfl
  · intro e he
    simpa using h e he

theorem outEdges_eq_nil {edges : List Edge} {nid : String}
    (h : ∀ e ∈ edges, e.source ≠ nid) : outEdges edges nid = [] := by
  unfold outEdges
  rw [List.filter_eq_nil_iff.mpr]
  · rfl
  · intro e he
    simpa using h e he

theorem nodeIds_bound_all {s : SwanState}
    (h7 : ∀ n ∈ s.nodes, n.id ∈ (List.range s.nodeIdCounter).map nodeIdOf) :
    ∀ x ∈ nodeIds s, x ∈ (List.range s.nodeIdCounter).map nodeIdOf := by
  intro x hx
  rcases List.mem_map.mp hx with ⟨n, hn, rfl⟩
  exact h7 n hn

theorem edgeIds_bound_all {s : SwanState}
    (h8 : ∀ e ∈ s.edges, e.id ∈ (List.range s.edgeIdCounter).map edgeIdOf) :
    ∀ x ∈ edgeIds s, x ∈ (List.range s.edgeIdCounter).map edgeIdOf := by
  intro x hx
  rcases List.mem_map.mp hx with ⟨e, he, rfl⟩
  exact h8 e he

theorem StoreInv_createNode {s : SwanState} (h : StoreInv s) (t : String)
    (p : OptPos) (d : JObj) : StoreInv (createNode s t p d).2 := by
  obtain ⟨n, hres, hid, htype, hdata, hopts, hnodes, hedges, hsel, hcache,
    hncnt, hecnt, _, _, _, _⟩ := createNode_spec s t p d
  obtain ⟨h1, h2, h3, h4, h5, h6, h7, h8, h9, h10, h11⟩ := h
  have hfresh : nodeIdOf s.nodeIdCounter ∉ nodeIds s :=
    fresh_of_bounded (fun a b hab => nodeIdOf_inj hab) (nodeIds_bound_all h7)
  have hfresh' : n.id ∉ s.nodes.map (fun m => m.id) := by
    rw [hid]
    exact hfresh
  have hset : nodesSet s.nodes n = s.nodes ++ [n] := nodesSet_fresh hfresh'
  have hnodes' : (createNode s t p d).2.nodes = s.nodes ++ [n] := by
    rw [hnodes, hset]
  have hnodeIds : nodeIds (createNode s t p d).2 = nodeIds s ++ [n.id] := by
    unfold nodeIds
    rw [hnodes']
    simp
  have hcacheNone : ¬(mapGet s.connectionCache (nodeIdOf s.nodeIdCounter)).isSome := by
    rw [h9, mapGet_isSome_iff, cacheOf_keys]
    exact hfresh
  refine ⟨?_, ?_, ?_, ?_, ?_, ?_, ?_, ?_, ?_, ?_, ?_⟩
  · rw [hopts]; exact h1
  · rw [hopts]; exact h2
  · rw [hnodeIds]
    refine List.Nodup.append h3 (List.nodup_singleton _) ?_
    intro x hx hx'
    rcases List.mem_singleton.mp hx' with rfl
    rw [hid] at hx
    exact hfresh hx
  · unfold edgeIds
    rw [hedges]
    exact h4
  · rw [hedges]
    exact h5
  · intro e he
    rw [hedges] at he
    rw [hnodeIds]
    exact ⟨List.mem_append.mpr (Or.inl (h6 e he).1),
      List.mem_append.mpr (Or.inl (h6 e he).2)⟩
  · intro m hm
    rw [hnodes'] at hm
    rw [hncnt]
    rcases List.mem_append.mp hm with hm | hm
    · exact mem_range_map_succ (h7 m hm)
    · rcases List.mem_singleton.mp hm with rfl
      rw [hid]
      exact self_mem_range_map_succ nodeIdOf s.nodeIdCounter
  · intro e he
    rw [hedges] at he
    rw [hecnt]
    exact h8 e he
  · rw [hcache, if_neg hcacheNone, h9]
    unfold cacheOf
    rw [hnodes', hedges]
    rw [List.map_append]
    congr 1
    simp only [List.map_singleton]
    have hin : inEdges s.edges n.id = [] := by
      apply inEdges_eq_nil
      intro e he hcontra
      have := (h6 e he).2
      rw [hcontra, hid] at this
      exact hfresh this
    have hout : outEdges s.edges n.id = [] := by
      apply outEdges_eq_nil
      intro e he hcontra
      have := (h6 e he).1
      rw [hcontra, hid] at this
      exact hfresh this
    rw [hin, hout, hid]
  · intro m hm
    rw [hnodes'] at hm
    rw [hopts]
    rcases List.mem_append.mp hm with hm | hm
    · exact h10 m hm
    · rcases List.mem_singleton.mp hm with rfl
      rw [hdata]
      exact (spreadMerge_idem s.options.nodeDefaults d h1).symm
  · intro e he
    rw [hedges] at he
    rw [hopts]
    exact h11 e he

/-! ### `createEdge` lemmas -/

theorem createEdge_fail {s : SwanState} {a b : String} (o : EdgeOptions)
    (h : ¬((findNode s a).isSome ∧ (findNode s b).isSome)) :
    createEdge s a b o = (none, s) := by
  unfold createEdge
  rw [if_pos h]

theorem createEdge_dup {s : SwanState} {a b : String} (o : EdgeOptions)
    {e : Edge} (ha : (findNode s a).isSome) (hb : (findNode s b).isSome)
    (hfind : s.edges.find? (fun e => e.source = a ∧ e.target = b) = some e) :
    createEdge s a b o = (some e.id, s) := by
  unfold createEdge
  rw [if_neg (by simp [ha, hb]), hfind]

theorem createEdge_new {s : SwanState} {a b : String} (o : EdgeOptions)
    (ha : (findNode s a).isSome) (hb : (findNode s b).isSome)
    (hfind : s.edges.find? (fun e => e.source = a ∧ e.target = b) = none) :
    ∃ edge : Edge,
      edge.id = edgeIdOf s.edgeIdCounter ∧ edge.source = a ∧ edge.target = b ∧
      edge.style = spreadMerge s.options.edgeStyle (o.style.getD []) ∧
      edge.data = o.data.getD [] ∧
      createEdge s a b o = (some edge.id,
        updateCacheOnEdgeCreate
          { s with edgeIdCounter := s.edgeIdCounter + 1,
                   edges := edgesSet s.edges edge } edge) := by
  unfold createEdge
  rw [if_neg (by simp [ha, hb]), hfind]
  exact ⟨⟨edgeIdOf s.edgeIdCounter, a, b,
    spreadMerge s.options.edgeStyle (o.style.getD []), o.data.getD []⟩,
    rfl, rfl, rfl, rfl, rfl, rfl⟩

theorem initNodeCache_of_mem {s : SwanState} {k : String}
    (h : (mapGet s.connectionCache k).isSome) : initNodeCache s k = s := by
  unfold initNodeCache
  rw [if_pos h]

theorem updateCacheOnEdgeCreate_nodes (s : SwanState) (e : Edge) :
    (updateCacheOnEdgeCreate s e).nodes = s.nodes := by
  simp [updateCacheOnEdgeCreate, initNodeCache, apply_ite SwanState.nodes]

theorem updateCacheOnEdgeCreate_edges (s : SwanState) (e : Edge) :
    (updateCacheOnEdgeCreate s e).edges = s.edges := by
  simp [updateCacheOnEdgeCreate, initNodeCache, apply_ite SwanState.edges]

theorem updateCacheOnEdgeCreate_options (s : SwanState) (e : Edge) :
    (updateCacheOnEdgeCreate s e).options = s.options := by
  simp [updateCacheOnEdgeCreate, initNodeCache, apply_ite SwanState.options]

theorem updateCacheOnEdgeCreate_selectedNodes (s : SwanState) (e : Edge) :
    (updateCacheOnEdgeCreate s e).selectedNodes = s.selectedNodes := by
  simp [updateCacheOnEdgeCreate, initNodeCache,
    apply_ite SwanState.selectedNodes]

theorem updateCacheOnEdgeCreate_nodeIdCounter (s : SwanState) (e : Edge) :
    (updateCacheOnEdgeCreate s e).nodeIdCounter = s.nodeIdCounter := by
  simp [updateCacheOnEdgeCreate, initNodeCache,
    apply_ite SwanState.nodeIdCounter]

theorem updateCacheOnEdgeCreate_edgeIdCounter (s : SwanState) (e : Edge) :
    (updateCacheOnEdgeCreate s e).edgeIdCounter = s.edgeIdCounter := by
  simp [updateCacheOnEdgeCreate, initNodeCache,
    apply_ite SwanState.edgeIdCounter]

theorem updateCacheOnEdgeCreate_cache_of_mem {s : SwanState} {e : Edge}
    (hs : (mapGet s.connectionCache e.source).isSome)
    (ht : (mapGet s.connectionCache e.target).isSome) :
    (updateCacheOnEdgeCreate s e).connectionCache =
      mapUpdate (mapUpdate s.connectionCache e.source
          (fun c => { c with outputs := setAdd c.outputs e.id }))
        e.target (fun c => { c with inputs := setAdd c.inputs e.id }) := by
  unfold updateCacheOnEdgeCreate
  simp only [initNodeCache_of_mem hs, initNodeCache_of_mem ht]

theorem inEdges_append_single (edges : List Edge) (e : Edge) (nid : String) :
    inEdges (edges ++ [e]) nid =
      inEdges edges nid ++ (if e.target = nid then [e.id] else []) := by
  unfold inEdges
  rw [List.filter_append, List.map_append]
  congr 1
  by_cases h : e.target = nid <;> simp [h]

theorem outEdges_append_single (edges : List Edge) (e : Edge) (nid : String) :
    outEdges (edges ++ [e]) nid =
      outEdges edges nid ++ (if e.source = nid then [e.id] else []) := by
  unfold outEdges
  rw [List.filter_append, List.map_append]
  congr 1
  by_cases h : e.source = nid <;> simp [h]

theorem inEdges_subset (edges : List Edge) (nid : String) :
    ∀ x ∈ inEdges edges nid, x ∈ edges.map (fun e => e.id) := by
  intro x hx
  rcases List.mem_map.mp hx with ⟨e, he, rfl⟩
  exact List.mem_map.mpr ⟨e, (List.mem_filter.mp he).1, rfl⟩

theorem outEdges_subset (edges : List Edge) (nid : String) :
    ∀ x ∈ outEdges edges nid, x ∈ edges.map (fun e => e.id) := by
  intro x hx
  rcases List.mem_map.mp hx with ⟨e, he, rfl⟩
  exact List.mem_map.mpr ⟨e, (List.mem_filter.mp he).1, rfl⟩

theorem StoreInv_createEdge {s : SwanState} (h : StoreInv s) (a b : String)
    (o : EdgeOptions) : StoreInv (createEdge s a b o).2 := by
  by_cases hv : (findNode s a).isSome ∧ (findNode s b).isSome
  case neg =>
    rw [createEdge_fail o hv]
    exact h
  cases hfind : s.edges.find? (fun e => e.source = a ∧ e.target = b) with
  | some e =>
    rw [createEdge_dup o hv.1 hv.2 hfind]
    exact h
  | none =>
    obtain ⟨edge, hid, hsrc, htgt, hstyle, hdata, hrun⟩ :=
      createEdge_new o hv.1 hv.2 hfind
    rw [hrun]
    obtain ⟨h1, h2, h3, h4, h5, h6, h7, h8, h9, h10, h11⟩ := h
    have hfreshE : edgeIdOf s.edgeIdCounter ∉ edgeIds s :=
      fresh_of_bounded (fun x y hxy => edgeIdOf_inj hxy) (edgeIds_bound_all h8)
    have hfreshE' : edge.id ∉ s.edges.map (fun f => f.id) := by
      rw [hid]
      exact hfreshE
    have hset : edgesSet s.edges edge = s.edges ++ [edge] :=
      edgesSet_fresh hfreshE'
    have hamem : a ∈ nodeIds s := (findNode_isSome_iff s a).mp hv.1
    have hbmem : b ∈ nodeIds s := (findNode_isSome_iff s b).mp hv.2
    have hsrcSome : (mapGet s.connectionCache edge.source).isSome := by
      rw [h9, mapGet_isSome_iff, cacheOf_keys, hsrc]
      exact hamem
    have htgtSome : (mapGet s.connectionCache edge.target).isSome := by
      rw [h9, mapGet_isSome_iff, cacheOf_keys, htgt]
      exact hbmem
    have hcc := updateCacheOnEdgeCreate_cache_of_mem
      (s := { s with edgeIdCounter := s.edgeIdCounter + 1,
                     edges := edgesSet s.edges edge }) (e := edge)
      hsrcSome htgtSome
    have hnodes := updateCacheOnEdgeCreate_nodes
      { s with edgeIdCounter := s.edgeIdCounter + 1,
               edges := edgesSet s.edges edge } edge
    have hedges := updateCacheOnEdgeCreate_edges
      { s with edgeIdCounter := s.edgeIdCounter + 1,
               edges := edgesSet s.edges edge } edge
    have hopts := updateCacheOnEdgeCreate_options
      { s with edgeIdCounter := s.edgeIdCounter + 1,
               edges := edgesSet s.edges edge } edge
    have hncnt := updateCacheOnEdgeCreate_nodeIdCounter
      { s with edgeIdCounter := s.edgeIdCounter + 1,
               edges := edgesSet s.edges edge } edge
    have hecnt := updateCacheOnEdgeCreate_edgeIdCounter
      { s with edgeIdCounter := s.edgeIdCounter + 1,
               edges := edgesSet s.edges edge } edge
    have hedges' : (updateCacheOnEdgeCreate
        { s with edgeIdCounter := s.edgeIdCounter + 1,
                 edges := edgesSet s.edges edge } edge).edges =
        s.edges ++ [edge] := by
      rw [hedges]
      exact hset
    have hnotmemIn : ∀ nid, edge.id ∉ inEdges s.edges nid := by
      intro nid hmem
      exact hfreshE' (inEdges_subset s.edges nid edge.id hmem)
    have hnotmemOut : ∀ nid, edge.id ∉ outEdges s.edges nid := by
      intro nid hmem
      exact hfreshE' (outEdges_subset s.edges nid edge.id hmem)
    refine ⟨?_, ?_, ?_, ?_, ?_, ?_, ?_, ?_, ?_, ?_, ?_⟩
    · rw [hopts]; exact h1
    · rw [hopts]; exact h2
    · unfold nodeIds
      rw [hnodes]
      exact h3
    · unfold edgeIds
      rw [hedges', List.map_append]
      refine List.Nodup.append h4 (List.nodup_singleton _) ?_
      intro x hx hx'
      rcases List.mem_singleton.mp hx' with rfl
      exact hfreshE' hx
    · rw [hedges', List.map_append]
      refine List.Nodup.append h5 (List.nodup_singleton _) ?_
      intro x hx hx'
      rcases List.mem_singleton.mp hx' with rfl
      rcases List.mem_map.mp hx with ⟨e', he', hpair⟩
      have := List.find?_eq_none.mp hfind e' he'
      rw [decide_eq_true_eq] at this
      apply this
      have hps : e'.source = edge.source := congrArg Prod.fst hpair
      have hpt : e'.target = edge.target := congrArg Prod.snd hpair
      rw [hps, hpt, hsrc, htgt]
      exact ⟨rfl, rfl⟩
    · intro e' he'
      rw [hedges'] at he'
      unfold nodeIds
      rw [hnodes]
      rcases List.mem_append.mp he' with he' | he'
      · exact h6 e' he'
      · rcases List.mem_singleton.mp he' with rfl
        rw [hsrc, htgt]
        exact ⟨hamem, hbmem⟩
    · intro n hn
      rw [hnodes] at hn
      rw [hncnt]
      exact h7 n hn
    · intro e' he'
      rw [hedges'] at he'
      rw [hecnt]
      rcases List.mem_append.mp he' with he' | he'
      · exact mem_range_map_succ (h8 e' he')
      · rcases List.mem_singleton.mp he' with rfl
        rw [hid]
        exact self_mem_range_map_succ edgeIdOf s.edgeIdCounter
    · have hcc2 : (updateCacheOnEdgeCreate
          { s with edgeIdCounter := s.edgeIdCounter + 1,
                   edges := edgesSet s.edges edge } edge).connectionCache =
          mapUpdate (mapUpdate s.connectionCache edge.source
              (fun c => { c with outputs := setAdd c.outputs edge.id }))
            edge.target
            (fun c => { c with inputs := setAdd c.inputs edge.id }) := hcc
      have hnodes2 : (updateCacheOnEdgeCreate
          { s with edgeIdCounter := s.edgeIdCounter + 1,
                   edges := edgesSet s.edges edge } edge).nodes = s.nodes :=
        hnodes
      have hcof : cacheOf (updateCacheOnEdgeCreate
          { s with edgeIdCounter := s.edgeIdCounter + 1,
                   edges := edgesSet s.edges edge } edge) =
          s.nodes.map (fun n => (n.id, CacheEntry.mk
            (inEdges s.edges n.id ++
              if edge.target = n.id then [edge.id] else [])
            (outEdges s.edges n.id ++
              if edge.source = n.id then [edge.id] else []))) := by
        unfold cacheOf
        rw [hnodes2, hedges']
        apply List.map_congr_left
        intro n _
        rw [inEdges_append_single, outEdges_append_single]
      rw [hcof, hcc2, h9, mapUpdate_cacheOf, mapUpdate_keyed]
      apply List.map_congr_left
      intro n _
      by_cases hS : n.id = edge.source <;> by_cases hT : n.id = edge.target
      · rw [if_pos hT, if_pos hS, if_pos hT.symm, if_pos hS.symm]
        simp [setAdd_of_not_mem (hnotmemIn n.id),
          setAdd_of_not_mem (hnotmemOut n.id)]
      · rw [if_neg hT, if_pos hS, if_neg (fun he => hT he.symm),
          if_pos hS.symm]
        simp [setAdd_of_not_mem (hnotmemOut n.id)]
      · rw [if_pos hT, if_neg hS, if_pos hT.symm,
          if_neg (fun he => hS he.symm)]
        simp [setAdd_of_not_mem (hnotmemIn n.id)]
      · rw [if_neg hT, if_neg hS, if_neg (fun he => hT he.symm),
          if_neg (fun he => hS he.symm)]
        simp
    · intro n hn
      rw [hnodes] at hn
      rw [hopts]
      exact h10 n hn
    · intro e' he'
      rw [hedges'] at he'
      rw [hopts]
      rcases List.mem_append.mp he' with he' | he'
      · exact h11 e' he'
      · rcases List.mem_singleton.mp he' with rfl
        rw [hstyle]
        exact (spreadMerge_idem s.options.edgeStyle (o.style.getD []) h2).symm

/-! ### `deleteNode` lemmas -/

theorem foldl_deleteEdge_edges (L : List String) :
    ∀ s : SwanState, (L.foldl deleteEdge s).edges =
      s.edges.filter (fun e => e.id ∉ L) := by
  induction L with
  | nil => intro s; simp
  | cons x L ih =>
    intro s
    rw [List.foldl_cons, ih, deleteEdge_edges, List.filter_filter]
    apply List.filter_congr
    intro e _
    by_cases h1 : e.id = x <;> by_cases h2 : e.id ∈ L <;> simp [h1, h2]

theorem foldl_deleteEdge_nodes (L : List String) :
    ∀ s : SwanState, (L.foldl deleteEdge s).nodes = s.nodes := by
  induction L with
  | nil => intro s; rfl
  | cons x L ih =>
    intro s
    rw [List.foldl_cons, ih, deleteEdge_nodes]

theorem foldl_deleteEdge_selectedNodes (L : List String) :
    ∀ s : SwanState, (L.foldl deleteEdge s).selectedNodes = s.selectedNodes := by
  induction L with
  | nil => intro s; rfl
  | cons x L ih =>
    intro s
    rw [List.foldl_cons, ih, deleteEdge_selectedNodes]

theorem foldl_deleteEdge_options (L : List String) :
    ∀ s : SwanState, (L.foldl deleteEdge s).options = s.options := by
  induction L with
  | nil => intro s; rfl
  | cons x L ih =>
    intro s
    rw [List.foldl_cons, ih, deleteEdge_options]

theorem foldl_deleteEdge_nodeIdCounter (L : List String) :
    ∀ s : SwanState, (L.foldl deleteEdge s).nodeIdCounter = s.nodeIdCounter := by
  induction L with
  | nil => intro s; rfl
  | cons x L ih =>
    intro s
    rw [List.foldl_cons, ih, deleteEdge_nodeIdCounter]

theorem foldl_deleteEdge_edgeIdCounter (L : List String) :
    ∀ s : SwanState, (L.foldl deleteEdge s).edgeIdCounter = s.edgeIdCounter := by
  induction L with
  | nil => intro s; rfl
  | cons x L ih =>
    intro s
    rw [List.foldl_cons, ih, deleteEdge_edgeIdCounter]

theorem foldl_deleteEdge_clipboard (L : List String) :
    ∀ s : SwanState, (L.foldl deleteEdge s).clipboard = s.clipboard := by
  induction L with
  | nil => intro s; rfl
  | cons x L ih =>
    intro s
    rw [List.foldl_cons, ih, deleteEdge_clipboard]

theorem foldl_deleteEdge_dragState (L : List String) :
    ∀ s : SwanState, (L.foldl deleteEdge s).dragState = s.dragState := by
  induction L with
  | nil => intro s; rfl
  | cons x L ih =>
    intro s
    rw [List.foldl_cons, ih, deleteEdge_dragState]

theorem foldl_deleteEdge_rand (L : List String) :
    ∀ s : SwanState, (L.foldl deleteEdge s).rand = s.rand := by
  induction L with
  | nil => intro s; rfl
  | cons x L ih =>
    intro s
    rw [List.foldl_cons, ih, deleteEdge_rand]

theorem foldl_deleteEdge_randIdx (L : List String) :
    ∀ s : SwanState, (L.foldl deleteEdge s).randIdx = s.randIdx := by
  induction L with
  | nil => intro s; rfl
  | cons x L ih =>
    intro s
    rw [List.foldl_cons, ih, deleteEdge_randIdx]

theorem StoreInv_foldl_deleteEdge (L : List String) :
    ∀ s : SwanState, StoreInv s → StoreInv (L.foldl deleteEdge s) := by
  induction L with
  | nil => intro s h; exact h
  | cons x L ih =>
    intro s h
    rw [List.foldl_cons]
    exact ih _ (StoreInv_deleteEdge h x)

theorem deleteNode_notFound {s : SwanState} {nid : String}
    (h : findNode s nid = none) : deleteNode s nid = s := by
  unfold deleteNode
  rw [h]

theorem deleteNode_nodes (s : SwanState) (nid : String) :
    (deleteNode s nid).nodes = s.nodes.filter (fun n => n.id ≠ nid) := by
  unfold deleteNode
  cases h : findNode s nid with
  | none =>
    have hall := List.find?_eq_none.mp h
    have h2 : s.nodes.filter (fun n => n.id ≠ nid) = s.nodes := by
      rw [List.filter_eq_self]
      intro n hn
      simpa using hall n hn
    exact h2.symm
  | some n =>
    simp only [cleanupNodeCache]
    rw [foldl_deleteEdge_nodes]

theorem deleteNode_found_selectedNodes {s : SwanState} {nid : String}
    {n : Node} (h : findNode s nid = some n) :
    (deleteNode s nid).selectedNodes =
      s.selectedNodes.filter (fun i => i ≠ nid) := by
  unfold deleteNode
  rw [h]
  simp only [cleanupNodeCache]
  rw [foldl_deleteEdge_selectedNodes]

theorem deleteNode_found_edges {s : SwanState} {nid : String} {n : Node}
    (h4 : (edgeIds s).Nodup) (h : findNode s nid = some n) :
    (deleteNode s nid).edges =
      s.edges.filter (fun e => ¬(e.source = nid ∨ e.target = nid)) := by
  unfold deleteNode
  rw [h]
  simp only [cleanupNodeCache]
  rw [foldl_deleteEdge_edges]
  apply List.filter_congr
  intro e he
  have h4' : (s.edges.map (fun e => e.id)).Nodup := h4
  simp only [decide_eq_decide]
  constructor
  · intro hnot hinc
    exact hnot (List.mem_map.mpr
      ⟨e, List.mem_filter.mpr ⟨he, by simpa using hinc⟩, rfl⟩)
  · intro hninc hmem
    rcases List.mem_map.mp hmem with ⟨e', he', hid⟩
    have he'm := (List.mem_filter.mp he').1
    have hpred := (List.mem_filter.mp he').2
    have he'e : e' = e := List.inj_on_of_nodup_map h4' he'm he hid
    subst he'e
    exact hninc (by simpa using hpred)

theorem deleteNode_edgeIdCounter (s : SwanState) (nid : String) :
    (deleteNode s nid).edgeIdCounter = s.edgeIdCounter := by
  unfold deleteNode
  cases h : findNode s nid with
  | none => rfl
  | some n =>
    simp only [cleanupNodeCache]
    rw [foldl_deleteEdge_edgeIdCounter]

theorem deleteNode_nodeIdCounter (s : SwanState) (nid : String) :
    (deleteNode s nid).nodeIdCounter = s.nodeIdCounter := by
  unfold deleteNode
  cases h : findNode s nid with
  | none => rfl
  | some n =>
    simp only [cleanupNodeCache]
    rw [foldl_deleteEdge_nodeIdCounter]

theorem deleteNode_options (s : SwanState) (nid : String) :
    (deleteNode s nid).options = s.options := by
  unfold deleteNode
  cases h : findNode s nid with
  | none => rfl
  | some n =>
    simp only [cleanupNodeCache]
    rw [foldl_deleteEdge_options]

theorem deleteNode_rand (s : SwanState) (nid : String) :
    (deleteNode s nid).rand = s.rand := by
  unfold deleteNode
  cases h : findNode s nid with
  | none => rfl
  | some n =>
    simp only [cleanupNodeCache]
    rw [foldl_deleteEdge_rand]

theorem deleteNode_randIdx (s : SwanState) (nid : String) :
    (deleteNode s nid).randIdx = s.randIdx := by
  unfold deleteNode
  cases h : findNode s nid with
  | none => rfl
  | some n =>
    simp only [cleanupNodeCache]
    rw [foldl_deleteEdge_randIdx]

theorem deleteNode_clipboard (s : SwanState) (nid : String) :
    (deleteNode s nid).clipboard = s.clipboard := by
  unfold deleteNode
  cases h : findNode s nid with
  | none => rfl
  | some n =>
    simp only [cleanupNodeCache]
    rw [foldl_deleteEdge_clipboard]

theorem filter_key_map_keyed {α β : Type} (l : List α) (key : α → String)
    (f2 : α → β) (nid : String) :
    (l.map (fun x => (key x, f2 x))).filter (fun p => p.1 ≠ nid) =
      (l.filter (fun x => key x ≠ nid)).map (fun x => (key x, f2 x)) := by
  induction l with
  | nil => rfl
  | cons x rest ih =>
    simp only [ne_eq, decide_not] at ih ⊢
    by_cases h : key x = nid <;> simp [List.filter_cons, h, ih]

theorem deleteNode_found_cache {s : SwanState} {nid : String} {n : Node}
    (h : findNode s nid = some n) :
    (deleteNode s nid).connectionCache =
      (((s.edges.filter (fun e => e.source = nid ∨ e.target = nid)).map
          (fun e => e.id)).foldl deleteEdge s).connectionCache.filter
        (fun p => p.1 ≠ nid) := by
  unfold deleteNode
  rw [h]
  rfl

theorem incident_id_filter {s : SwanState} (h4 : (edgeIds s).Nodup)
    (nid : String) :
    s.edges.filter (fun e => e.id ∉
        (s.edges.filter (fun e => e.source = nid ∨ e.target = nid)).map
          (fun e => e.id)) =
      s.edges.filter (fun e => ¬(e.source = nid ∨ e.target = nid)) := by
  apply List.filter_congr
  intro e he
  have h4' : (s.edges.map (fun e => e.id)).Nodup := h4
  simp only [decide_eq_decide]
  constructor
  · intro hnot hinc
    exact hnot (List.mem_map.mpr
      ⟨e, List.mem_filter.mpr ⟨he, by simpa using hinc⟩, rfl⟩)
  · intro hninc hmem
    rcases List.mem_map.mp hmem with ⟨e', he', hid⟩
    have he'm := (List.mem_filter.mp he').1
    have hpred := (List.mem_filter.mp he').2
    have he'e : e' = e := List.inj_on_of_nodup_map h4' he'm he hid
    subst he'e
    exact hninc (by simpa using hpred)

theorem StoreInv_deleteNode {s : SwanState} (h : StoreInv s) (nid : String) :
    StoreInv (deleteNode s nid) := by
  cases hfind : findNode s nid with
  | none =>
    rw [deleteNode_notFound hfind]
    exact h
  | some n =>
    have h4s : (edgeIds s).Nodup := h.2.2.2.1
    obtain ⟨g1, g2, g3, g4, g5, g6, g7, g8, g9, g10, g11⟩ :=
      StoreInv_foldl_deleteEdge
        ((s.edges.filter (fun e => e.source = nid ∨ e.target = nid)).map
          (fun e => e.id)) s h
    have hnodes1 := foldl_deleteEdge_nodes
      ((s.edges.filter (fun e => e.source = nid ∨ e.target = nid)).map
        (fun e => e.id)) s
    have hedges1 := foldl_deleteEdge_edges
      ((s.edges.filter (fun e => e.source = nid ∨ e.target = nid)).map
        (fun e => e.id)) s
    have hedgesD := deleteNode_found_edges h4s hfind
    have hnodesD := deleteNode_nodes s nid
    have hselD := deleteNode_found_selectedNodes hfind
    have hcacheD := deleteNode_found_cache hfind
    have hoptsD := deleteNode_options s nid
    have hncntD := deleteNode_nodeIdCounter s nid
    have hecntD := deleteNode_edgeIdCounter s nid
    have hincfree : ∀ e ∈ (deleteNode s nid).edges,
        e.source ≠ nid ∧ e.target ≠ nid := by
      intro e he
      rw [hedgesD] at he
      have hpred := (List.mem_filter.mp he).2
      simp only [decide_eq_true_eq] at hpred
      exact ⟨fun hc => hpred (Or.inl hc), fun hc => hpred (Or.inr hc)⟩
    have hnodeIdsD : nodeIds (deleteNode s nid) =
        (nodeIds s).filter (fun x => x ≠ nid) := by
      unfold nodeIds
      rw [hnodesD]
      exact map_filter_comm s.nodes (fun n => n.id) (fun x => x ≠ nid)
    refine ⟨?_, ?_, ?_, ?_, ?_, ?_, ?_, ?_, ?_, ?_, ?_⟩
    · rw [hoptsD]; exact h.1
    · rw [hoptsD]; exact h.2.1
    · rw [hnodeIdsD]
      exact (List.filter_sublist _).nodup h.2.2.1
    · unfold edgeIds
      rw [hedgesD]
      have h4' : (s.edges.map (fun e => e.id)).Nodup := h4s
      exact (List.Sublist.map (fun (e : Edge) => e.id)
        (List.filter_sublist s.edges)).nodup h4'
    · rw [hedgesD]
      exact (List.Sublist.map (fun (e : Edge) => (e.source, e.target))
        (List.filter_sublist s.edges)).nodup h.2.2.2.2.1
    · intro e he
      have hmem : e ∈ s.edges := by
        rw [hedgesD] at he
        exact (List.mem_filter.mp he).1
      have hends := h.2.2.2.2.2.1 e hmem
      have hne := hincfree e he
      rw [hnodeIdsD]
      exact ⟨List.mem_filter.mpr ⟨hends.1, by simpa using hne.1⟩,
        List.mem_filter.mpr ⟨hends.2, by simpa using hne.2⟩⟩
    · intro m hm
      rw [hnodesD] at hm
      rw [hncntD]
      exact h.2.2.2.2.2.2.1 m (List.mem_filter.mp hm).1
    · intro e he
      have hmem : e ∈ s.edges := by
        rw [hedgesD] at he
        exact (List.mem_filter.mp he).1
      rw [hecntD]
      exact h.2.2.2.2.2.2.2.1 e hmem
    · rw [hcacheD, g9]
      unfold cacheOf
      rw [filter_key_map_keyed]
      rw [hnodes1, hedges1, hnodesD, hedgesD, incident_id_filter h4s nid]
    · intro m hm
      rw [hnodesD] at hm
      rw [hoptsD]
      exact h.2.2.2.2.2.2.2.2.2.1 m (List.mem_filter.mp hm).1
    · intro e he
      have hmem : e ∈ s.edges := by
        rw [hedgesD] at he
        exact (List.mem_filter.mp he).1
      rw [hoptsD]
      exact h.2.2.2.2.2.2.2.2.2.2 e hmem

/-! ### `validateCache` agrees with the incremental cache -/

theorem keys_entry_map (nodes : List Node) (f : Node → CacheEntry) :
    (nodes.map (fun n => (n.id, f n))).map Prod.fst =
      nodes.map (fun n => n.id) := by
  rw [List.map_map]
  rfl

theorem rebuildCache_fold (nodes : List Node) (L : List Edge)
    (hends : ∀ e ∈ L, e.source ∈ nodes.map (fun n => n.id) ∧
      e.target ∈ nodes.map (fun n => n.id))
    (hnd : (L.map (fun e => e.id)).Nodup) :
    L.foldl (fun m e =>
        if (mapGet m e.source).isSome ∧ (mapGet m e.target).isSome then
          let m := mapUpdate m e.source
            (fun c => { c with outputs := setAdd c.outputs e.id })
          mapUpdate m e.target
            (fun c => { c with inputs := setAdd c.inputs e.id })
        else m)
      (nodes.map (fun n => (n.id, CacheEntry.mk [] []))) =
      nodes.map (fun n =>
        (n.id, CacheEntry.mk (inEdges L n.id) (outEdges L n.id))) := by
  induction L using List.reverseRecOn with
  | nil =>
    apply List.map_congr_left
    intro n _
    simp [inEdges, outEdges]
  | append_singleton L e ih =>
    rw [List.foldl_append, List.foldl_cons, List.foldl_nil]
    have hendsL : ∀ e' ∈ L, e'.source ∈ nodes.map (fun n => n.id) ∧
        e'.target ∈ nodes.map (fun n => n.id) := by
      intro e' he'
      exact hends e' (List.mem_append.mpr (Or.inl he'))
    have hndL : (L.map (fun e => e.id)).Nodup := by
      rw [List.map_append] at hnd
      exact (List.nodup_append.mp hnd).1
    have hfreshL : e.id ∉ L.map (fun e => e.id) := by
      rw [List.map_append] at hnd
      intro hmem
      rcases List.nodup_append.mp hnd with ⟨_, _, hdisj⟩
      exact hdisj hmem (List.mem_singleton.mpr rfl)
    rw [ih hendsL hndL]
    have hsome1 : (mapGet (nodes.map (fun n =>
        (n.id, CacheEntry.mk (inEdges L n.id) (outEdges L n.id))))
        e.source).isSome := by
      rw [mapGet_isSome_iff, keys_entry_map]
      exact (hends e (List.mem_append.mpr (Or.inr (List.mem_singleton.mpr
        rfl)))).1
    have hsome2 : (mapGet (nodes.map (fun n =>
        (n.id, CacheEntry.mk (inEdges L n.id) (outEdges L n.id))))
        e.target).isSome := by
      rw [mapGet_isSome_iff, keys_entry_map]
      exact (hends e (List.mem_append.mpr (Or.inr (List.mem_singleton.mpr
        rfl)))).2
    rw [if_pos ⟨hsome1, hsome2⟩]
    show mapUpdate (mapUpdate _ e.source _) e.target _ = _
    have hnotmemIn : ∀ nid, e.id ∉ inEdges L nid := by
      intro nid hmem
      exact hfreshL (inEdges_subset L nid e.id hmem)
    have hnotmemOut : ∀ nid, e.id ∉ outEdges L nid := by
      intro nid hmem
      exact hfreshL (outEdges_subset L nid e.id hmem)
    rw [mapUpdate_keyed, mapUpdate_keyed]
    apply List.map_congr_left
    intro n _
    rw [inEdges_append_single, outEdges_append_single]
    by_cases hS : n.id = e.source <;> by_cases hT : n.id = e.target
    · rw [if_pos hT, if_pos hS, if_pos hT.symm, if_pos hS.symm]
      simp [setAdd_of_not_mem (hnotmemIn n.id),
        setAdd_of_not_mem (hnotmemOut n.id)]
    · rw [if_neg hT, if_pos hS, if_neg (fun he => hT he.symm),
        if_pos hS.symm]
      simp [setAdd_of_not_mem (hnotmemOut n.id)]
    · rw [if_pos hT, if_neg hS, if_pos hT.symm,
        if_neg (fun he => hS he.symm)]
      simp [setAdd_of_not_mem (hnotmemIn n.id)]
    · rw [if_neg hT, if_neg hS, if_neg (fun he => hT he.symm),
        if_neg (fun he => hS he.symm)]
      simp

theorem rebuildCache_eq {s : SwanState} (h : StoreInv s) :
    rebuildCache s = cacheOf s := by
  unfold rebuildCache cacheOf
  exact rebuildCache_fold s.nodes s.edges h.2.2.2.2.2.1 h.2.2.2.1

theorem validateCache_issues_zero {s : SwanState} (h : StoreInv s) :
    (validateCache s).1 = 0 := by
  have hkeysnd : ((cacheOf s).map Prod.fst).Nodup := by
    rw [cacheOf_keys]
    exact h.2.2.1
  have hall : ∀ p ∈ cacheOf s, mapGet s.connectionCache p.1 = some p.2 := by
    intro p hp
    rw [h.2.2.2.2.2.2.2.2.1]
    rcases p with ⟨k, v⟩
    exact mapGet_of_nodup hkeysnd hp
  have hfold : ∀ (m : List (String × CacheEntry)),
      (∀ p ∈ m, mapGet s.connectionCache p.1 = some p.2) →
      ∀ acc : ℕ, m.foldl (fun issues p =>
        match mapGet s.connectionCache p.1 with
        | none => issues + 1
        | some current =>
          if p.2.inputs.length ≠ current.inputs.length ∨
              p.2.outputs.length ≠ current.outputs.length then issues + 1
          else issues) acc = acc := by
    intro m
    induction m with
    | nil => intro _ acc; rfl
    | cons p rest ih =>
      intro hm acc
      rw [List.foldl_cons]
      have hp := hm p (List.mem_cons_self p rest)
      have hstep : (match mapGet s.connectionCache p.1 with
          | none => acc + 1
          | some current =>
            if p.2.inputs.length ≠ current.inputs.length ∨
                p.2.outputs.length ≠ current.outputs.length then acc + 1
            else acc) = acc := by
        rw [hp]
        simp
      rw [hstep]
      exact ih (fun q hq => hm q (List.mem_cons_of_mem p hq)) acc
  simp only [validateCache]
  rw [rebuildCache_eq h, hfold (cacheOf s) hall 0]
  simp

/-! ### Invariant preservation along operation sequences -/

theorem StoreInv_applyOp {s : SwanState} (h : StoreInv s) (op : Op) :
    StoreInv (applyOp s op) := by
  cases op with
  | createNode t p d => exact StoreInv_createNode h t p d
  | deleteNode i => exact StoreInv_deleteNode h i
  | createEdge a b o => exact StoreInv_createEdge h a b o
  | deleteEdge i => exact StoreInv_deleteEdge h i

theorem StoreInv_runOps (ops : List Op) :
    ∀ s : SwanState, StoreInv s → StoreInv (runOps s ops) := by
  induction ops with
  | nil => intro s h; exact h
  | cons op ops ih =>
    intro s h
    exact ih _ (StoreInv_applyOp h op)

theorem StoreInv_emptyState (opts : Options) (r : ℕ → ℚ)
    (h1 : (opts.nodeDefaults.map Prod.fst).Nodup)
    (h2 : (opts.edgeStyle.map Prod.fst).Nodup) :
    StoreInv (emptyState opts r) := by
  refine ⟨h1, h2, ?_, ?_, ?_, ?_, ?_, ?_, ?_, ?_, ?_⟩ <;>
    simp [emptyState, nodeIds, edgeIds, cacheOf]

/-! ### `clear` empties the store -/

theorem foldl_deleteNode_nodes (L : List String) :
    ∀ s : SwanState, (L.foldl deleteNode s).nodes =
      s.nodes.filter (fun n => n.id ∉ L) := by
  induction L with
  | nil => intro s; simp
  | cons x L ih =>
    intro s
    rw [List.foldl_cons, ih, deleteNode_nodes, List.filter_filter]
    apply List.filter_congr
    intro n _
    by_cases h1 : n.id = x <;> by_cases h2 : n.id ∈ L <;> simp [h1, h2]

theorem foldl_deleteNode_options (L : List String) :
    ∀ s : SwanState, (L.foldl deleteNode s).options = s.options := by
  induction L with
  | nil => intro s; rfl
  | cons x L ih =>
    intro s
    rw [List.foldl_cons, ih, deleteNode_options]

theorem foldl_deleteNode_clipboard (L : List String) :
    ∀ s : SwanState, (L.foldl deleteNode s).clipboard = s.clipboard := by
  induction L with
  | nil => intro s; rfl
  | cons x L ih =>
    intro s
    rw [List.foldl_cons, ih, deleteNode_clipboard]

theorem foldl_deleteNode_rand (L : List String) :
    ∀ s : SwanState, (L.foldl deleteNode s).rand = s.rand := by
  induction L with
  | nil => intro s; rfl
  | cons x L ih =>
    intro s
    rw [List.foldl_cons, ih, deleteNode_rand]

theorem StoreInv_foldl_deleteNode (L : List String) :
    ∀ s : SwanState, StoreInv s → StoreInv (L.foldl deleteNode s) := by
  induction L with
  | nil => intro s h; exact h
  | cons x L ih =>
    intro s h
    rw [List.foldl_cons]
    exact ih _ (StoreInv_deleteNode h x)

theorem clear_spec {s : SwanState} (h : StoreInv s) :
    (clear s).nodes = [] ∧ (clear s).edges = [] ∧
    (clear s).selectedNodes = [] ∧ (clear s).connectionCache = [] ∧
    (clear s).nodeIdCounter = 1 ∧ (clear s).edgeIdCounter = 1 ∧
    (clear s).options = s.options ∧ (clear s).clipboard = s.clipboard ∧
    (clear s).rand = s.rand := by
  have hfoldInv := StoreInv_foldl_deleteNode (s.nodes.map (fun n => n.id)) s h
  have hnodes : ((s.nodes.map (fun n => n.id)).foldl deleteNode s).nodes = [] := by
    rw [foldl_deleteNode_nodes]
    rw [List.filter_eq_nil_iff]
    intro n hn
    simp only [decide_not, Bool.not_eq_true', decide_eq_false_iff_not,
      Decidable.not_not]
    exact List.mem_map.mpr ⟨n, hn, rfl⟩
  have hedges : ((s.nodes.map (fun n => n.id)).foldl deleteNode s).edges = [] := by
    rw [List.eq_nil_iff_forall_not_mem]
    intro e he
    have := hfoldInv.2.2.2.2.2.1 e he
    unfold nodeIds at this
    rw [hnodes] at this
    simp at this
  have hcache :
      ((s.nodes.map (fun n => n.id)).foldl deleteNode s).connectionCache = [] := by
    rw [hfoldInv.2.2.2.2.2.2.2.2.1]
    unfold cacheOf
    rw [hnodes]
    rfl
  unfold clear clearSelection
  refine ⟨?_, ?_, rfl, ?_, rfl, rfl, ?_, ?_, ?_⟩
  · exact hnodes
  · exact hedges
  · exact hcache
  · exact foldl_deleteNode_options _ s
  · exact foldl_deleteNode_clipboard _ s
  · exact foldl_deleteNode_rand _ s

theorem StoreInv_clear {s : SwanState} (h : StoreInv s) : StoreInv (clear s) := by
  obtain ⟨hn, he, hs, hc, hnc, hec, ho, _, _⟩ := clear_spec h
  refine ⟨?_, ?_, ?_, ?_, ?_, ?_, ?_, ?_, ?_, ?_, ?_⟩ <;>
    simp [nodeIds, edgeIds, cacheOf, hn, he, hc, ho, h.1, h.2.1]

theorem mapSet_fresh {m : List (String × String)} {k v : String}
    (h : ¬(mapGet m k).isSome) : mapSet m k v = m ++ [(k, v)] := by
  unfold mapSet
  rw [if_neg h]

theorem load_nodes_fold (ds : List DocNode)
    (hpos : ∀ nd ∈ ds, (∃ xv, nd.position.x = some xv ∧ xv ≠ 0) ∧
      (∃ yv, nd.position.y = some yv ∧ yv ≠ 0))
    (hnd : (ds.map (fun nd => nd.id)).Nodup) :
    ∀ (t : SwanState) (m : List (String × String)), StoreInv t →
      (∀ nd ∈ ds, ¬(mapGet m nd.id).isSome) →
      (ds.foldl
        (fun (acc : SwanState × List (String × String)) (nodeData : DocNode) =>
          let r :=
            createNode acc.1 nodeData.type nodeData.position nodeData.data
          (r.2, mapSet acc.2 nodeData.id r.1)) (t, m)).1.nodes =
          t.nodes ++ importedNodes t.options t.nodeIdCounter ds ∧
      (ds.foldl
        (fun (acc : SwanState × List (String × String)) (nodeData : DocNode) =>
          let r :=
            createNode acc.1 nodeData.type nodeData.position nodeData.data
          (r.2, mapSet acc.2 nodeData.id r.1)) (t, m)).1.edges = t.edges ∧
      (ds.foldl
        (fun (acc : SwanState × List (String × String)) (nodeData : DocNode) =>
          let r :=
            createNode acc.1 nodeData.type nodeData.position nodeData.data
          (r.2, mapSet acc.2 nodeData.id r.1)) (t, m)).1.options = t.options ∧
      (ds.foldl
        (fun (acc : SwanState × List (String × String)) (nodeData : DocNode) =>
          let r :=
            createNode acc.1 nodeData.type nodeData.position nodeData.data
          (r.2, mapSet acc.2 nodeData.id r.1)) (t, m)).1.edgeIdCounter =
          t.edgeIdCounter ∧
      (ds.foldl
        (fun (acc : SwanState × List (String × String)) (nodeData : DocNode) =>
          let r :=
            createNode acc.1 nodeData.type nodeData.position nodeData.data
          (r.2, mapSet acc.2 nodeData.id r.1)) (t, m)).1.nodeIdCounter =
          t.nodeIdCounter + ds.length ∧
      (ds.foldl
        (fun (acc : SwanState × List (String × String)) (nodeData : DocNode) =>
          let r :=
            createNode acc.1 nodeData.type nodeData.position nodeData.data
          (r.2, mapSet acc.2 nodeData.id r.1)) (t, m)).2 =
          m ++ importedIdMap t.nodeIdCounter ds ∧
      StoreInv (ds.foldl
        (fun (acc : SwanState × List (String × String)) (nodeData : DocNode) =>
          let r :=
            createNode acc.1 nodeData.type nodeData.position nodeData.data
          (r.2, mapSet acc.2 nodeData.id r.1)) (t, m)).1 := by
  induction ds with
  | nil =>
    intro t m ht _
    simp [importedNodes, importedIdMap]
    exact ht
  | cons nd rest ih =>
    intro t m ht hmfresh
    obtain ⟨n, hres, hid, htype, hdata, hopts, hnodes, hedges, hsel, hcache,
      hncnt, hecnt, hxe, hye, _, _⟩ := createNode_spec t nd.type nd.position
        nd.data
    obtain ⟨⟨xv, hxv, hxvne⟩, ⟨yv, hyv, hyvne⟩⟩ :=
      hpos nd (List.mem_cons_self nd rest)
    have hpx : n.position.x = xv := hxe xv hxv hxvne
    have hpy : n.position.y = yv := hye yv hyv hyvne
    have hneq : n = importedNode t.options t.nodeIdCounter nd := by
      cases n with
      | mk nId nType nPos nData =>
        cases nPos with
        | mk npx npy =>
          simp only [importedNode]
          simp only at hid htype hdata hpx hpy
          rw [hid, htype, hdata, hpx, hpy, hxv, hyv]
          simp
    have hfreshN : n.id ∉ t.nodes.map (fun m => m.id) := by
      rw [hid]
      exact fresh_of_bounded (fun a b hab => nodeIdOf_inj hab)
        (nodeIds_bound_all ht.2.2.2.2.2.2.1)
    have hset : nodesSet t.nodes n = t.nodes ++ [n] := nodesSet_fresh hfreshN
    have hInv1 : StoreInv (createNode t nd.type nd.position nd.data).2 :=
      StoreInv_createNode ht nd.type nd.position nd.data
    have hmset : mapSet m nd.id (createNode t nd.type nd.position nd.data).1 =
        m ++ [(nd.id, nodeIdOf t.nodeIdCounter)] := by
      rw [hres]
      exact mapSet_fresh (hmfresh nd (List.mem_cons_self nd rest))
    have hndrest : (rest.map (fun nd => nd.id)).Nodup := by
      simp only [List.map_cons, List.nodup_cons] at hnd
      exact hnd.2
    have hposrest : ∀ nd' ∈ rest,
        (∃ xv, nd'.position.x = some xv ∧ xv ≠ 0) ∧
        (∃ yv, nd'.position.y = some yv ∧ yv ≠ 0) := by
      intro nd' hnd'
      exact hpos nd' (List.mem_cons_of_mem nd hnd')
    have hmfresh' : ∀ nd' ∈ rest,
        ¬(mapGet (m ++ [(nd.id, nodeIdOf t.nodeIdCounter)]) nd'.id).isSome := by
      intro nd' hnd'
      rw [mapGet_isSome_iff]
      rw [List.map_append]
      intro hmem
      rcases List.mem_append.mp hmem with hmem | hmem
      · exact hmfresh nd' (List.mem_cons_of_mem nd hnd')
          ((mapGet_isSome_iff m nd'.id).mpr hmem)
      · simp only [List.map_cons, List.map_nil, List.mem_singleton] at hmem
        simp only [List.map_cons, List.nodup_cons] at hnd
        exact hnd.1 (hmem ▸ List.mem_map.mpr ⟨nd', hnd', rfl⟩)
    rw [List.foldl_cons]
    have := ih hposrest hndrest (createNode t nd.type nd.position nd.data).2
      (mapSet m nd.id (createNode t nd.type nd.position nd.data).1)
      hInv1 (by rw [hmset]; exact hmfresh')
    obtain ⟨c1, c2, c3, c4, c5, c6, c7⟩ := this
    refine ⟨?_, ?_, ?_, ?_, ?_, ?_, c7⟩
    · rw [c1, hnodes, hset, hopts, hncnt]
      show (t.nodes ++ [n]) ++ _ = _
      rw [List.append_assoc]
      congr 1
      rw [hneq]
      rfl
    · rw [c2, hedges]
    · rw [c3, hopts]
    · rw [c4, hecnt]
    · rw [c5, hncnt, List.length_cons]
      omega
    · rw [c6, hmset, hncnt]
      rw [List.append_assoc]
      rfl

theorem load_edges_fold (idMap : List (String × String)) (es : List DocEdge)
    (hpairs : (es.map (fun ed => ((mapGet idMap ed.source).getD "",
      (mapGet idMap ed.target).getD ""))).Nodup) :
    ∀ t : SwanState, StoreInv t →
      (∀ ed ∈ es, ∃ sid tid, mapGet idMap ed.source = some sid ∧
        mapGet idMap ed.target = some tid ∧ sid ≠ "" ∧ tid ≠ "" ∧
        sid ∈ nodeIds t ∧ tid ∈ nodeIds t) →
      (∀ ed ∈ es, ((mapGet idMap ed.source).getD "",
        (mapGet idMap ed.target).getD "") ∉
          t.edges.map (fun e => (e.source, e.target))) →
      (es.foldl (fun s edgeData =>
        match mapGet idMap edgeData.source, mapGet idMap edgeData.target with
        | some sourceId, some targetId =>
          if sourceId ≠ "" ∧ targetId ≠ "" then
            (createEdge s sourceId targetId
              { style := some edgeData.style, data := some edgeData.data }).2
          else s
        | _, _ => s) t).edges =
          t.edges ++ importedEdges t.options t.edgeIdCounter idMap es ∧
      (es.foldl (fun s edgeData =>
        match mapGet idMap edgeData.source, mapGet idMap edgeData.target with
        | some sourceId, some targetId =>
          if sourceId ≠ "" ∧ targetId ≠ "" then
            (createEdge s sourceId targetId
              { style := some edgeData.style, data := some edgeData.data }).2
          else s
        | _, _ => s) t).nodes = t.nodes ∧
      StoreInv (es.foldl (fun s edgeData =>
        match mapGet idMap edgeData.source, mapGet idMap edgeData.target with
        | some sourceId, some targetId =>
          if sourceId ≠ "" ∧ targetId ≠ "" then
            (createEdge s sourceId targetId
              { style := some edgeData.style, data := some edgeData.data }).2
          else s
        | _, _ => s) t) := by
  induction es with
  | nil =>
    intro t ht _ _
    simp [importedEdges]
    exact ht
  | cons ed rest ih =>
    intro t ht hlive hnew
    obtain ⟨sid, tid, hsid, htid, hsne, htne, hsmem, htmem⟩ :=
      hlive ed (List.mem_cons_self ed rest)
    have hsSome : (findNode t sid).isSome := (findNode_isSome_iff t sid).mpr hsmem
    have htSome : (findNode t tid).isSome := (findNode_isSome_iff t tid).mpr htmem
    have hfindNone : t.edges.find?
        (fun e => e.source = sid ∧ e.target = tid) = none := by
      rw [List.find?_eq_none]
      intro e he
      rw [decide_eq_true_eq]
      rintro ⟨hes, het⟩
      apply hnew ed (List.mem_cons_self ed rest)
      rw [hsid, htid]
      exact List.mem_map.mpr ⟨e, he, by simp [hes, het]⟩
    obtain ⟨edge, hid, hsrc, htgt, hstyle, hdata, hrun⟩ :=
      createEdge_new { style := some ed.style, data := some ed.data }
        hsSome htSome hfindNone
    have hInv1 : StoreInv (createEdge t sid tid
        { style := some ed.style, data := some ed.data }).2 :=
      StoreInv_createEdge ht sid tid _
    have hfreshE : edge.id ∉ t.edges.map (fun f => f.id) := by
      rw [hid]
      exact fresh_of_bounded (fun x y hxy => edgeIdOf_inj hxy)
        (edgeIds_bound_all ht.2.2.2.2.2.2.2.1)
    have hset : edgesSet t.edges edge = t.edges ++ [edge] :=
      edgesSet_fresh hfreshE
    have hedges1 : (createEdge t sid tid
        { style := some ed.style, data := some ed.data }).2.edges =
        t.edges ++ [edge] := by
      rw [hrun]
      rw [updateCacheOnEdgeCreate_edges]
      exact hset
    have hnodes1 : (createEdge t sid tid
        { style := some ed.style, data := some ed.data }).2.nodes = t.nodes := by
      rw [hrun]
      rw [updateCacheOnEdgeCreate_nodes]
    have hopts1 : (createEdge t sid tid
        { style := some ed.style, data := some ed.data }).2.options =
        t.options := by
      rw [hrun]
      rw [updateCacheOnEdgeCreate_options]
    have hecnt1 : (createEdge t sid tid
        { style := some ed.style, data := some ed.data }).2.edgeIdCounter =
        t.edgeIdCounter + 1 := by
      rw [hrun]
      rw [updateCacheOnEdgeCreate_edgeIdCounter]
    have hedgeEq : edge = importedEdge t.options t.edgeIdCounter idMap ed := by
      cases edge with
      | mk eId eSrc eTgt eStyle eData =>
        simp only [importedEdge]
        simp only at hid hsrc htgt hstyle hdata
        rw [hid, hsrc, htgt, hstyle, hdata, hsid, htid]
        simp
    have hpairs' : (rest.map (fun ed => ((mapGet idMap ed.source).getD "",
        (mapGet idMap ed.target).getD ""))).Nodup := by
      simp only [List.map_cons, List.nodup_cons] at hpairs
      exact hpairs.2
    have hlive' : ∀ ed' ∈ rest, ∃ s2 t2,
        mapGet idMap ed'.source = some s2 ∧
        mapGet idMap ed'.target = some t2 ∧ s2 ≠ "" ∧ t2 ≠ "" ∧
        s2 ∈ nodeIds (createEdge t sid tid
          { style := some ed.style, data := some ed.data }).2 ∧
        t2 ∈ nodeIds (createEdge t sid tid
          { style := some ed.style, data := some ed.data }).2 := by
      intro ed' hed'
      obtain ⟨s2, t2, hs2, ht2, hsn2, htn2, hsm2, htm2⟩ :=
        hlive ed' (List.mem_cons_of_mem ed hed')
      refine ⟨s2, t2, hs2, ht2, hsn2, htn2, ?_, ?_⟩
      · unfold nodeIds
        rw [hnodes1]
        exact hsm2
      · unfold nodeIds
        rw [hnodes1]
        exact htm2
    have hnew' : ∀ ed' ∈ rest, ((mapGet idMap ed'.source).getD "",
        (mapGet idMap ed'.target).getD "") ∉
          (createEdge t sid tid
            { style := some ed.style, data := some ed.data }).2.edges.map
              (fun e => (e.source, e.target)) := by
      intro ed' hed'
      rw [hedges1, List.map_append]
      intro hmem
      rcases List.mem_append.mp hmem with hmem | hmem
      · exact hnew ed' (List.mem_cons_of_mem ed hed') hmem
      · simp only [List.map_cons, List.map_nil, List.mem_singleton] at hmem
        simp only [List.map_cons, List.nodup_cons] at hpairs
        apply hpairs.1
        have hphi : ((mapGet idMap ed.source).getD "",
            (mapGet idMap ed.target).getD "") = (edge.source, edge.target) := by
          rw [hsid, htid, hsrc, htgt]
          simp
        rw [hphi, ← hmem]
        exact List.mem_map.mpr ⟨ed', hed', rfl⟩
    have hstep : (match mapGet idMap ed.source, mapGet idMap ed.target with
        | some sourceId, some targetId =>
          if sourceId ≠ "" ∧ targetId ≠ "" then
            (createEdge t sourceId targetId
              { style := some ed.style, data := some ed.data }).2
          else t
        | _, _ => t) = (createEdge t sid tid
          { style := some ed.style, data := some ed.data }).2 := by
      simp only [hsid, htid]
      rw [if_pos ⟨hsne, htne⟩]
    rw [List.foldl_cons, hstep]
    obtain ⟨c1, c2, c3⟩ := ih hpairs'
      (createEdge t sid tid { style := some ed.style, data := some ed.data }).2
      hInv1 hlive' hnew'
    refine ⟨?_, ?_, c3⟩
    · rw [c1, hedges1, hopts1, hecnt1]
      rw [List.append_assoc]
      congr 1
      rw [hedgeEq]
      rfl
    · rw [c2, hnodes1]

theorem importedNodes_getElem (opts : Options) (ds : List DocNode) :
    ∀ (c j : ℕ), (importedNodes opts c ds)[j]? =
      ds[j]?.map (fun nd => importedNode opts (c + j) nd) := by
  induction ds with
  | nil => intro c j; simp [importedNodes]
  | cons nd rest ih =>
    intro c j
    cases j with
    | zero => simp [importedNodes]
    | succ j =>
      simp only [importedNodes, List.getElem?_cons_succ]
      rw [ih (c + 1) j]
      have harith : c + 1 + j = c + (j + 1) := by omega
      rw [harith]

theorem importedEdges_getElem (opts : Options) (idMap : List (String × String))
    (es : List DocEdge) :
    ∀ (c j : ℕ), (importedEdges opts c idMap es)[j]? =
      es[j]?.map (fun ed => importedEdge opts (c + j) idMap ed) := by
  induction es with
  | nil => intro c j; simp [importedEdges]
  | cons ed rest ih =>
    intro c j
    cases j with
    | zero => simp [importedEdges]
    | succ j =>
      simp only [importedEdges, List.getElem?_cons_succ]
      rw [ih (c + 1) j]
      have harith : c + 1 + j = c + (j + 1) := by omega
      rw [harith]

theorem importedNodes_length (opts : Options) (ds : List DocNode) :
    ∀ c, (importedNodes opts c ds).length = ds.length := by
  induction ds with
  | nil => intro c; rfl
  | cons nd rest ih =>
    intro c
    simp [importedNodes, ih (c + 1)]

theorem importedEdges_length (opts : Options) (idMap : List (String × String))
    (es : List DocEdge) :
    ∀ c, (importedEdges opts c idMap es).length = es.length := by
  induction es with
  | nil => intro c; rfl
  | cons ed rest ih =>
    intro c
    simp [importedEdges, ih (c + 1)]

theorem importedIdMap_lookup (ds : List DocNode)
    (hnd : (ds.map (fun nd => nd.id)).Nodup) :
    ∀ (c j : ℕ) (nd : DocNode), ds[j]? = some nd →
      mapGet (importedIdMap c ds) nd.id = some (nodeIdOf (c + j)) := by
  induction ds with
  | nil => intro c j nd h; simp at h
  | cons d rest ih =>
    intro c j nd h
    simp only [List.map_cons, List.nodup_cons] at hnd
    cases j with
    | zero =>
      simp only [List.getElem?_cons_zero, Option.some_inj] at h
      subst h
      simp [importedIdMap, mapGet]
    | succ j =>
      simp only [List.getElem?_cons_succ] at h
      have hmem : nd ∈ rest := by
        rcases List.getElem?_eq_some.mp h with ⟨hlt, hget⟩
        rw [← hget]
        exact List.getElem_mem hlt
      have hne : d.id ≠ nd.id := by
        intro he
        exact hnd.1 (he ▸ List.mem_map.mpr ⟨nd, hmem, rfl⟩)
      simp only [importedIdMap, mapGet, if_neg hne]
      rw [ih hnd.2 (c + 1) j nd h]
      have harith : c + 1 + j = c + (j + 1) := by omega
      rw [harith]

theorem importedIdMap_shape (ds : List DocNode) :
    ∀ (c : ℕ) (k v : String), mapGet (importedIdMap c ds) k = some v →
      ∃ m, v = nodeIdOf m := by
  induction ds with
  | nil => intro c k v h; simp [importedIdMap, mapGet] at h
  | cons d rest ih =>
    intro c k v h
    simp only [importedIdMap, mapGet] at h
    by_cases he : d.id = k
    · rw [if_pos he] at h
      exact ⟨c, (Option.some_inj.mp h).symm⟩
    · rw [if_neg he] at h
      exact ih (c + 1) k v h

theorem importedIdMap_mem_nodeIds (opts : Options) (ds : List DocNode) :
    ∀ (c : ℕ) (k v : String), mapGet (importedIdMap c ds) k = some v →
      v ∈ (importedNodes opts c ds).map (fun n => n.id) := by
  induction ds with
  | nil => intro c k v h; simp [importedIdMap, mapGet] at h
  | cons d rest ih =>
    intro c k v h
    simp only [importedIdMap, mapGet] at h
    by_cases he : d.id = k
    · rw [if_pos he] at h
      simp only [importedNodes, List.map_cons, List.mem_cons]
      exact Or.inl (Option.some_inj.mp h).symm
    · rw [if_neg he] at h
      simp only [importedNodes, List.map_cons, List.mem_cons]
      exact Or.inr (ih (c + 1) k v h)

theorem nodeIdOf_ne_empty (m : ℕ) : nodeIdOf m ≠ "" := by
  intro h
  have := congrArg String.data h
  rw [nodeIdOf] at this
  simp [String.data_append] at this

theorem mem_map_id_iff_getElem {ds : List DocNode} {k : String} :
    k ∈ ds.map (fun nd => nd.id) ↔
      ∃ (j : ℕ) (nd : DocNode), ds[j]? = some nd ∧ nd.id = k := by
  constructor
  · intro h
    rcases List.mem_map.mp h with ⟨nd, hnd, hid⟩
    rcases List.mem_iff_getElem.mp hnd with ⟨j, hlt, hget⟩
    refine ⟨j, nd, ?_, hid⟩
    rw [List.getElem?_eq_getElem hlt, hget]
  · rintro ⟨j, nd, hget, hid⟩
    rcases List.getElem?_eq_some.mp hget with ⟨hlt, hg⟩
    refine List.mem_map.mpr ⟨nd, ?_, hid⟩
    rw [← hg]
    exact List.getElem_mem hlt

theorem getWorkflowData_eq (s : SwanState) :
    getWorkflowData s = WorkflowDoc.mk (some (s.nodes.map exportNode))
      (some (s.edges.map exportEdge)) := rfl

theorem loadWorkflowData_doc (s : SwanState) (ds : List DocNode)
    (es : List DocEdge) :
    loadWorkflowData s (WorkflowDoc.mk (some ds) (some es)) =
      loadEdgesState (loadNodesAcc (clear s) ds).1
        (loadNodesAcc (clear s) ds).2 es := rfl

theorem importedIdMap_getD_inj (ds : List DocNode)
    (hnd : (ds.map (fun nd => nd.id)).Nodup) (c : ℕ) :
    ∀ k1 k2, k1 ∈ ds.map (fun nd => nd.id) → k2 ∈ ds.map (fun nd => nd.id) →
      (mapGet (importedIdMap c ds) k1).getD "" =
        (mapGet (importedIdMap c ds) k2).getD "" → k1 = k2 := by
  intro k1 k2 h1 h2 heq
  rcases mem_map_id_iff_getElem.mp h1 with ⟨j1, nd1, hg1, hid1⟩
  rcases mem_map_id_iff_getElem.mp h2 with ⟨j2, nd2, hg2, hid2⟩
  have hl1 := importedIdMap_lookup ds hnd c j1 nd1 hg1
  have hl2 := importedIdMap_lookup ds hnd c j2 nd2 hg2
  rw [hid1] at hl1
  rw [hid2] at hl2
  rw [hl1, hl2] at heq
  simp only [Option.getD_some] at heq
  have hj : j1 = j2 := by
    have := nodeIdOf_inj heq
    omega
  subst hj
  rw [hg1] at hg2
  have hnd12 : nd1 = nd2 := Option.some_inj.mp hg2
  rw [← hid1, ← hid2, hnd12]

theorem roundtrip_core {s : SwanState} (hinv : StoreInv s)
    (hpos : ∀ n ∈ s.nodes, n.position.x ≠ 0 ∧ n.position.y ≠ 0) :
    (loadWorkflowData s (getWorkflowData s)).nodes =
      importedNodes s.options 1 (s.nodes.map exportNode) ∧
    (loadWorkflowData s (getWorkflowData s)).edges =
      importedEdges s.options 1 (importedIdMap 1 (s.nodes.map exportNode))
        (s.edges.map exportEdge) ∧
    StoreInv (loadWorkflowData s (getWorkflowData s)) := by
  have hids : (s.nodes.map exportNode).map (fun nd => nd.id) = nodeIds s := by
    rw [List.map_map]
    rfl
  have hnd : ((s.nodes.map exportNode).map (fun nd => nd.id)).Nodup := by
    rw [hids]
    exact hinv.2.2.1
  have hpos' : ∀ nd ∈ s.nodes.map exportNode,
      (∃ xv, nd.position.x = some xv ∧ xv ≠ 0) ∧
      (∃ yv, nd.position.y = some yv ∧ yv ≠ 0) := by
    intro nd hnd2
    rcases List.mem_map.mp hnd2 with ⟨n, hn, rfl⟩
    exact ⟨⟨n.position.x, rfl, (hpos n hn).1⟩,
      ⟨n.position.y, rfl, (hpos n hn).2⟩⟩
  have hinvc : StoreInv (clear s) := StoreInv_clear hinv
  have hfresh : ∀ nd ∈ s.nodes.map exportNode,
      ¬(mapGet ([] : List (String × String)) nd.id).isSome := by
    intro nd _
    simp [mapGet]
  have hN' : (loadNodesAcc (clear s) (s.nodes.map exportNode)).1.nodes =
      (clear s).nodes ++ importedNodes (clear s).options
        (clear s).nodeIdCounter (s.nodes.map exportNode) ∧
      (loadNodesAcc (clear s) (s.nodes.map exportNode)).1.edges =
        (clear s).edges ∧
      (loadNodesAcc (clear s) (s.nodes.map exportNode)).1.options =
        (clear s).options ∧
      (loadNodesAcc (clear s) (s.nodes.map exportNode)).1.edgeIdCounter =
        (clear s).edgeIdCounter ∧
      (loadNodesAcc (clear s) (s.nodes.map exportNode)).1.nodeIdCounter =
        (clear s).nodeIdCounter + (s.nodes.map exportNode).length ∧
      (loadNodesAcc (clear s) (s.nodes.map exportNode)).2 =
        [] ++ importedIdMap (clear s).nodeIdCounter
          (s.nodes.map exportNode) ∧
      StoreInv (loadNodesAcc (clear s) (s.nodes.map exportNode)).1 :=
    load_nodes_fold (s.nodes.map exportNode) hpos' hnd (clear s) [] hinvc
      hfresh
  obtain ⟨hcn, hce, hcs, hcc, hcnc, hcec, hco, hccl, hcr⟩ := clear_spec hinv
  obtain ⟨hun0, hue0, huo0, huec0, hunc0, hum0, huinv⟩ := hN'
  have hun : (loadNodesAcc (clear s) (s.nodes.map exportNode)).1.nodes =
      importedNodes s.options 1 (s.nodes.map exportNode) := by
    rw [hun0, hcn, hco, hcnc, List.nil_append]
  have hue : (loadNodesAcc (clear s) (s.nodes.map exportNode)).1.edges =
      [] := by
    rw [hue0, hce]
  have huo : (loadNodesAcc (clear s) (s.nodes.map exportNode)).1.options =
      s.options := by
    rw [huo0, hco]
  have huec :
      (loadNodesAcc (clear s) (s.nodes.map exportNode)).1.edgeIdCounter =
        1 := by
    rw [huec0, hcec]
  have hum : (loadNodesAcc (clear s) (s.nodes.map exportNode)).2 =
      importedIdMap 1 (s.nodes.map exportNode) := by
    rw [hum0, hcnc, List.nil_append]
  have hpairs : ((s.edges.map exportEdge).map (fun ed =>
      ((mapGet (importedIdMap 1 (s.nodes.map exportNode)) ed.source).getD "",
       (mapGet (importedIdMap 1 (s.nodes.map exportNode))
         ed.target).getD ""))).Nodup := by
    have key : (s.edges.map exportEdge).map (fun ed =>
        ((mapGet (importedIdMap 1 (s.nodes.map exportNode))
           ed.source).getD "",
         (mapGet (importedIdMap 1 (s.nodes.map exportNode))
           ed.target).getD "")) =
        (s.edges.map (fun e => (e.source, e.target))).map (fun p =>
          ((mapGet (importedIdMap 1 (s.nodes.map exportNode)) p.1).getD "",
           (mapGet (importedIdMap 1 (s.nodes.map exportNode))
             p.2).getD "")) := by
      rw [List.map_map, List.map_map]
      rfl
    rw [key]
    apply List.Nodup.map_on ?_ hinv.2.2.2.2.1
    intro p hp q hq heq
    rcases List.mem_map.mp hp with ⟨e1, he1, rfl⟩
    rcases List.mem_map.mp hq with ⟨e2, he2, rfl⟩
    have hl1 := hinv.2.2.2.2.2.1 e1 he1
    have hl2 := hinv.2.2.2.2.2.1 e2 he2
    have hs1 : e1.source ∈ (s.nodes.map exportNode).map
        (fun nd => nd.id) := by
      rw [hids]
      exact hl1.1
    have ht1 : e1.target ∈ (s.nodes.map exportNode).map
        (fun nd => nd.id) := by
      rw [hids]
      exact hl1.2
    have hs2 : e2.source ∈ (s.nodes.map exportNode).map
        (fun nd => nd.id) := by
      rw [hids]
      exact hl2.1
    have ht2 : e2.target ∈ (s.nodes.map exportNode).map
        (fun nd => nd.id) := by
      rw [hids]
      exact hl2.2
    have h1 := importedIdMap_getD_inj (s.nodes.map exportNode) hnd 1
      e1.source e2.source hs1 hs2 (congrArg Prod.fst heq)
    have h2 := importedIdMap_getD_inj (s.nodes.map exportNode) hnd 1
      e1.target e2.target ht1 ht2 (congrArg Prod.snd heq)
    rw [h1, h2]
  have hlive : ∀ ed ∈ s.edges.map exportEdge, ∃ s2 t2,
      mapGet (importedIdMap 1 (s.nodes.map exportNode)) ed.source =
        some s2 ∧
      mapGet (importedIdMap 1 (s.nodes.map exportNode)) ed.target =
        some t2 ∧ s2 ≠ "" ∧ t2 ≠ "" ∧
      s2 ∈ nodeIds (loadNodesAcc (clear s) (s.nodes.map exportNode)).1 ∧
      t2 ∈ nodeIds (loadNodesAcc (clear s) (s.nodes.map exportNode)).1 := by
    intro ed hed
    rcases List.mem_map.mp hed with ⟨e, he, rfl⟩
    have hlv := hinv.2.2.2.2.2.1 e he
    have hsl : (exportEdge e).source ∈ (s.nodes.map exportNode).map
        (fun nd => nd.id) := by
      rw [hids]
      exact hlv.1
    have htl : (exportEdge e).target ∈ (s.nodes.map exportNode).map
        (fun nd => nd.id) := by
      rw [hids]
      exact hlv.2
    rcases mem_map_id_iff_getElem.mp hsl with ⟨js, nds, hgs, hid_s⟩
    rcases mem_map_id_iff_getElem.mp htl with ⟨jt, ndt, hgt, hid_t⟩
    have hls := importedIdMap_lookup (s.nodes.map exportNode) hnd 1 js nds
      hgs
    have hlt := importedIdMap_lookup (s.nodes.map exportNode) hnd 1 jt ndt
      hgt
    rw [hid_s] at hls
    rw [hid_t] at hlt
    refine ⟨nodeIdOf (1 + js), nodeIdOf (1 + jt), hls, hlt,
      nodeIdOf_ne_empty _, nodeIdOf_ne_empty _, ?_, ?_⟩
    · unfold nodeIds
      rw [hun]
      exact importedIdMap_mem_nodeIds s.options (s.nodes.map exportNode) 1
        (exportEdge e).source _ hls
    · unfold nodeIds
      rw [hun]
      exact importedIdMap_mem_nodeIds s.options (s.nodes.map exportNode) 1
        (exportEdge e).target _ hlt
  have hnew : ∀ ed ∈ s.edges.map exportEdge,
      ((mapGet (importedIdMap 1 (s.nodes.map exportNode)) ed.source).getD "",
       (mapGet (importedIdMap 1 (s.nodes.map exportNode))
         ed.target).getD "") ∉
      (loadNodesAcc (clear s) (s.nodes.map exportNode)).1.edges.map
        (fun e => (e.source, e.target)) := by
    intro ed _
    rw [hue]
    simp
  have hE' : (loadEdgesState
        (loadNodesAcc (clear s) (s.nodes.map exportNode)).1
        (importedIdMap 1 (s.nodes.map exportNode))
        (s.edges.map exportEdge)).edges =
      (loadNodesAcc (clear s) (s.nodes.map exportNode)).1.edges ++
        importedEdges
          (loadNodesAcc (clear s) (s.nodes.map exportNode)).1.options
          (loadNodesAcc (clear s) (s.nodes.map exportNode)).1.edgeIdCounter
          (importedIdMap 1 (s.nodes.map exportNode))
          (s.edges.map exportEdge) ∧
      (loadEdgesState
        (loadNodesAcc (clear s) (s.nodes.map exportNode)).1
        (importedIdMap 1 (s.nodes.map exportNode))
        (s.edges.map exportEdge)).nodes =
        (loadNodesAcc (clear s) (s.nodes.map exportNode)).1.nodes ∧
      StoreInv (loadEdgesState
        (loadNodesAcc (clear s) (s.nodes.map exportNode)).1
        (importedIdMap 1 (s.nodes.map exportNode))
        (s.edges.map exportEdge)) :=
    load_edges_fold (importedIdMap 1 (s.nodes.map exportNode))
      (s.edges.map exportEdge) hpairs
      (loadNodesAcc (clear s) (s.nodes.map exportNode)).1 huinv hlive hnew
  have hfin : loadWorkflowData s (getWorkflowData s) =
      loadEdgesState (loadNodesAcc (clear s) (s.nodes.map exportNode)).1
        (importedIdMap 1 (s.nodes.map exportNode))
        (s.edges.map exportEdge) := by
    rw [getWorkflowData_eq, loadWorkflowData_doc, hum]
  refine ⟨?_, ?_, ?_⟩
  · rw [hfin, hE'.2.1, hun]
  · rw [hfin, hE'.1, hue, huo, huec, List.nil_append]
  · rw [hfin]
    exact hE'.2.2

theorem mem_of_index {α : Type} {l : List α} {i : ℕ} {a : α}
    (h : l[i]? = some a) : a ∈ l := by
  rcases List.getElem?_eq_some.mp h with ⟨hlt, hg⟩
  rw [← hg]
  exact List.getElem_mem hlt

/-- C5 (corrected): with every stored coordinate nonzero, exporting a
well-formed graph, clearing and re-importing the document reproduces the same
number of nodes and edges; corresponding nodes keep their type, position and
data, corresponding edges keep their style and data, and the edge topology is
reproduced through the id remapping (the reimported edge's endpoints are the
fresh ids of the reimported copies of the original endpoints).  The original
claim's unconditional position preservation fails for coordinates equal to 0,
which the falsy-coordinate default in `createNode` replaces by a random
value. -/
theorem C5_roundtrip_amended (s : SwanState) (hinv : StoreInv s)
    (hpos : ∀ n ∈ s.nodes, n.position.x ≠ 0 ∧ n.position.y ≠ 0) :
    (importJSON (ParseResult.parsedDoc (getWorkflowData s)) s).1 = true ∧
    (importJSON (ParseResult.parsedDoc (getWorkflowData s)) s).2.nodes.length
      = s.nodes.length ∧
    (importJSON (ParseResult.parsedDoc (getWorkflowData s)) s).2.edges.length
      = s.edges.length ∧
    (∀ (j : ℕ) (n n2 : Node), s.nodes[j]? = some n →
      (importJSON (ParseResult.parsedDoc (getWorkflowData s)) s).2.nodes[j]?
        = some n2 →
      n2.type = n.type ∧ n2.position = n.position ∧ n2.data = n.data) ∧
    (∀ (j : ℕ) (e e2 : Edge), s.edges[j]? = some e →
      (importJSON (ParseResult.parsedDoc (getWorkflowData s)) s).2.edges[j]?
        = some e2 →
      e2.style = e.style ∧ e2.data = e.data ∧
      (∀ (i : ℕ) (n n2 : Node), s.nodes[i]? = some n →
        (importJSON (ParseResult.parsedDoc (getWorkflowData s)) s).2.nodes[i]?
          = some n2 →
        (e.source = n.id → e2.source = n2.id) ∧
        (e.target = n.id → e2.target = n2.id))) := by
  have hIJ : (importJSON (ParseResult.parsedDoc (getWorkflowData s)) s).2 =
      loadWorkflowData s (getWorkflowData s) := rfl
  have hids : (s.nodes.map exportNode).map (fun nd => nd.id) = nodeIds s := by
    rw [List.map_map]
    rfl
  have hnd : ((s.nodes.map exportNode).map (fun nd => nd.id)).Nodup := by
    rw [hids]
    exact hinv.2.2.1
  obtain ⟨hrn, hre, hrinv⟩ := roundtrip_core hinv hpos
  refine ⟨rfl, ?_, ?_, ?_, ?_⟩
  · rw [hIJ, hrn, importedNodes_length, List.length_map]
  · rw [hIJ, hre, importedEdges_length, List.length_map]
  · intro j n n2 hn hn2
    rw [hIJ, hrn, importedNodes_getElem, List.getElem?_map, hn] at hn2
    have hn2' : importedNode s.options (1 + j) (exportNode n) = n2 := by
      simpa using hn2
    subst hn2'
    refine ⟨rfl, rfl, ?_⟩
    exact (hinv.2.2.2.2.2.2.2.2.2.1 n (mem_of_index hn)).symm
  · intro j e e2 he he2
    rw [hIJ, hre, importedEdges_getElem, List.getElem?_map, he] at he2
    have he2' : importedEdge s.options (1 + j)
        (importedIdMap 1 (s.nodes.map exportNode)) (exportEdge e) = e2 := by
      simpa using he2
    subst he2'
    refine ⟨?_, rfl, ?_⟩
    · show spreadMerge s.options.edgeStyle e.style = e.style
      exact (hinv.2.2.2.2.2.2.2.2.2.2 e (mem_of_index he)).symm
    · intro i n n2 hn hn2
      rw [hIJ, hrn, importedNodes_getElem, List.getElem?_map, hn] at hn2
      have hn2' : importedNode s.options (1 + i) (exportNode n) = n2 := by
        simpa using hn2
      subst hn2'
      have hgd : (s.nodes.map exportNode)[i]? = some (exportNode n) := by
        rw [List.getElem?_map, hn]
        rfl
      have hl := importedIdMap_lookup (s.nodes.map exportNode) hnd 1 i
        (exportNode n) hgd
      constructor
      · intro hsrc
        show (mapGet (importedIdMap 1 (s.nodes.map exportNode))
          (exportEdge e).source).getD "" = nodeIdOf (1 + i)
        have hs2 : (exportEdge e).source = n.id := hsrc
        rw [hs2]
        have hl2 : mapGet (importedIdMap 1 (s.nodes.map exportNode)) n.id =
            some (nodeIdOf (1 + i)) := hl
        rw [hl2]
        rfl
      · intro htgt
        show (mapGet (importedIdMap 1 (s.nodes.map exportNode))
          (exportEdge e).target).getD "" = nodeIdOf (1 + i)
        have ht2 : (exportEdge e).target = n.id := htgt
        rw [ht2]
        have hl2 : mapGet (importedIdMap 1 (s.nodes.map exportNode)) n.id =
            some (nodeIdOf (1 + i)) := hl
        rw [hl2]
        rfl

theorem selectNode_eq (s : SwanState) (nid : String) :
    selectNode s nid true = (match findNode s nid with
      | none => s
      | some _ => { s with selectedNodes := setAdd s.selectedNodes nid }) :=
  rfl

theorem selectNode_proj_nodes (s : SwanState) (nid : String) :
    (selectNode s nid true).nodes = s.nodes := by
  rw [selectNode_eq]
  cases findNode s nid <;> rfl

theorem selectNode_proj_edges (s : SwanState) (nid : String) :
    (selectNode s nid true).edges = s.edges := by
  rw [selectNode_eq]
  cases findNode s nid <;> rfl

theorem StoreInv_selectNode {s : SwanState} (h : StoreInv s) (nid : String) :
    StoreInv (selectNode s nid true) := by
  rw [selectNode_eq]
  cases findNode s nid
  · exact h
  · exact h

theorem StoreInv_clearSelection {s : SwanState} (h : StoreInv s) :
    StoreInv (clearSelection s) := h

/-- `paste` on a nonempty clipboard creates one node per clipboard entry (and
no edge): the `idMap` the source builds is never read and `clipboard.edges`
is never consumed. -/
theorem paste_spec (s : SwanState) (clip : Clipboard) (hinv : StoreInv s)
    (hclip : s.clipboard = some clip) (hne : clip.nodes ≠ []) :
    (paste s).nodes.length = s.nodes.length + clip.nodes.length ∧
    (paste s).edges = s.edges := by
  have hfold : ∀ (L : List ClipNode) (t : SwanState), StoreInv t →
      (L.foldl (fun s2 nodeData =>
        let r := createNode s2 nodeData.type
          (OptPos.mk (some (nodeData.position.x + 50))
            (some (nodeData.position.y + 50))) nodeData.data
        selectNode r.2 r.1 true) t).nodes.length =
          t.nodes.length + L.length ∧
      (L.foldl (fun s2 nodeData =>
        let r := createNode s2 nodeData.type
          (OptPos.mk (some (nodeData.position.x + 50))
            (some (nodeData.position.y + 50))) nodeData.data
        selectNode r.2 r.1 true) t).edges = t.edges := by
    intro L
    induction L with
    | nil =>
      intro t ht
      simp
    | cons c rest ih =>
      intro t ht
      simp only [List.foldl_cons]
      obtain ⟨n, hres, hid, _, _, _, hnodes, hedges, _, _, _, _, _, _, _, _⟩ :=
        createNode_spec t c.type
          (OptPos.mk (some (c.position.x + 50)) (some (c.position.y + 50)))
          c.data
      have hInv2 : StoreInv (selectNode (createNode t c.type
          (OptPos.mk (some (c.position.x + 50)) (some (c.position.y + 50)))
          c.data).2 (createNode t c.type
          (OptPos.mk (some (c.position.x + 50)) (some (c.position.y + 50)))
          c.data).1 true) :=
        StoreInv_selectNode (StoreInv_createNode ht c.type
          (OptPos.mk (some (c.position.x + 50)) (some (c.position.y + 50)))
          c.data) _
      obtain ⟨h1, h2⟩ := ih _ hInv2
      have hfreshN : n.id ∉ t.nodes.map (fun m => m.id) := by
        rw [hid]
        exact fresh_of_bounded (fun a b hab => nodeIdOf_inj hab)
          (nodeIds_bound_all ht.2.2.2.2.2.2.1)
      constructor
      · rw [h1, selectNode_proj_nodes, hnodes, nodesSet_fresh hfreshN,
          List.length_append]
        simp only [List.length_cons, List.length_nil]
        omega
      · rw [h2, selectNode_proj_edges, hedges]
  have hp : paste s = if clip.nodes.isEmpty then s else
      clip.nodes.foldl (fun s2 nodeData =>
        let r := createNode s2 nodeData.type
          (OptPos.mk (some (nodeData.position.x + 50))
            (some (nodeData.position.y + 50))) nodeData.data
        selectNode r.2 r.1 true) (clearSelection s) := by
    unfold paste
    rw [hclip]
  have hie : clip.nodes.isEmpty = false := by
    cases hcn : clip.nodes with
    | nil => exact absurd hcn hne
    | cons c rest => rfl
  rw [hp, hie, if_neg (by simp)]
  obtain ⟨h1, h2⟩ := hfold clip.nodes (clearSelection s)
    (StoreInv_clearSelection hinv)
  have hcsn : (clearSelection s).nodes = s.nodes := rfl
  have hcse : (clearSelection s).edges = s.edges := rfl
  rw [h1, h2, hcsn, hcse]
  exact ⟨rfl, rfl⟩

/-! ### The claims -/

/-- C1 (corrected): `createEdge` itself performs no self-loop check — when
both endpoints name the same live node and no `(a, a)` edge exists yet, it
creates and returns a new self-loop edge, growing the edge store by one.
Only `validateConnection` (the interactive connection gate) rejects a
same-node connection.  The original claim's "always returns a null/failure
result and the edge count is unchanged" is false. -/
theorem C1_createEdge_self_loop (s : SwanState) (a : String) (o : EdgeOptions)
    (hinv : StoreInv s) (ha : (findNode s a).isSome)
    (hnone : s.edges.find? (fun e => e.source = a ∧ e.target = a) = none) :
    (∀ p q, validateConnection s a p a q = false) ∧
    ∃ edge : Edge, edge.source = a ∧ edge.target = a ∧
      (createEdge s a a o).1 = some edge.id ∧
      (createEdge s a a o).2.edges = s.edges ++ [edge] := by
  constructor
  · intro p q
    simp [validateConnection]
  · obtain ⟨edge, hid, hsrc, htgt, hsty, hdat, hrun⟩ :=
      createEdge_new o ha ha hnone
    refine ⟨edge, hsrc, htgt, ?_, ?_⟩
    · rw [hrun]
    · rw [hrun, updateCacheOnEdgeCreate_edges]
      show edgesSet s.edges edge = s.edges ++ [edge]
      apply edgesSet_fresh
      rw [hid]
      exact fresh_of_bounded (fun x y hxy => edgeIdOf_inj hxy)
        (edgeIds_bound_all hinv.2.2.2.2.2.2.2.1)

theorem C1_createEdge_self_loop_witness :
    (∀ p q, validateConnection oneNodeState "node-1" p "node-1" q = false) ∧
    ∃ edge : Edge, edge.source = "node-1" ∧ edge.target = "node-1" ∧
      (createEdge oneNodeState "node-1" "node-1" (EdgeOptions.mk none none)).1
        = some edge.id ∧
      (createEdge oneNodeState "node-1" "node-1"
        (EdgeOptions.mk none none)).2.edges =
        oneNodeState.edges ++ [edge] :=
  C1_createEdge_self_loop oneNodeState "node-1" (EdgeOptions.mk none none)
    (by decide) (by decide) (by decide)

/-- C1, counterexample to the original claim: on a store holding the single
node `node-1`, `createEdge("node-1", "node-1")` returns a non-null id and
the edge count goes from 0 to 1. -/
theorem C1_self_loop_counterexample :
    (createEdge oneNodeState "node-1" "node-1"
      (EdgeOptions.mk none none)).1 = some "edge-1" ∧
    oneNodeState.edges.length = 0 ∧
    (createEdge oneNodeState "node-1" "node-1"
      (EdgeOptions.mk none none)).2.edges.length = 1 := by
  decide

/-- C6 (corrected): an unparsable payload (`JSON.parse` throws) is indeed
rejected — `importJSON` returns `false` and the state is untouched.  But a
parsed yet structurally incomplete document (missing `nodes` and `edges`
lists) is not rejected: `importJSON` returns `true`, and because
`loadWorkflowData` clears the editor before looking at the document, the live
graph is wiped rather than left untouched. -/
theorem C6_import_failure_amended (s : SwanState) (hinv : StoreInv s) :
    importJSON ParseResult.parseError s = (false, s) ∧
    (importJSON (ParseResult.parsedDoc (WorkflowDoc.mk none none)) s).1 =
      true ∧
    (importJSON (ParseResult.parsedDoc (WorkflowDoc.mk none none)) s).2.nodes
      = [] ∧
    (importJSON (ParseResult.parsedDoc (WorkflowDoc.mk none none)) s).2.edges
      = [] := by
  have hld : (importJSON (ParseResult.parsedDoc (WorkflowDoc.mk none none))
      s).2 = clear s := rfl
  obtain ⟨hn, he, _⟩ := clear_spec hinv
  refine ⟨rfl, rfl, ?_, ?_⟩
  · rw [hld]
    exact hn
  · rw [hld]
    exact he

theorem C6_import_failure_amended_witness :
    importJSON ParseResult.parseError oneNodeState = (false, oneNodeState) ∧
    (importJSON (ParseResult.parsedDoc (WorkflowDoc.mk none none))
      oneNodeState).1 = true ∧
    (importJSON (ParseResult.parsedDoc (WorkflowDoc.mk none none))
      oneNodeState).2.nodes = [] ∧
    (importJSON (ParseResult.parsedDoc (WorkflowDoc.mk none none))
      oneNodeState).2.edges = [] :=
  C6_import_failure_amended oneNodeState (by decide)

/-- C6, counterexample to the original claim: the structurally incomplete
document `{}` (no `nodes`, no `edges`) is reported as a success and empties
a store that held a node. -/
theorem C6_incomplete_doc_counterexample :
    (importJSON (ParseResult.parsedDoc (WorkflowDoc.mk none none))
      oneNodeState).1 = true ∧
    oneNodeState.nodes.length = 1 ∧
    (importJSON (ParseResult.parsedDoc (WorkflowDoc.mk none none))
      oneNodeState).2.nodes.length = 0 := by
  decide

/-- C7 (code bug): copying a selection does capture the induced sub-edges,
but `paste` never consumes `clipboard.edges` (it builds an id map from the
clipboard entries to the fresh node ids and never reads it): on a store of
two selected connected nodes, pasting creates the two node copies but no
edge between them — the edge count stays 1 instead of becoming 2. -/
theorem C7_paste_creates_no_edges :
    (copySelected (selectAll connectedState)).clipboard.map
      (fun c => (c.nodes.length, c.edges.length)) = some (2, 1) ∧
    (paste (copySelected (selectAll connectedState))).nodes.length = 4 ∧
    (paste (copySelected (selectAll connectedState))).edges.length = 1 := by
  obtain ⟨hn4, hedges⟩ := paste_spec (copySelected (selectAll connectedState))
    (Clipboard.mk
      [ClipNode.mk "default" defaultNodeDefaults (Pos.mk 10 20),
       ClipNode.mk "default" defaultNodeDefaults (Pos.mk 30 40)]
      [Edge.mk "edge-1" "node-1" "node-2" defaultEdgeStyle []])
    (by decide) (by decide) (by decide)
  refine ⟨by decide, ?_, ?_⟩
  · rw [hn4]
    decide
  · rw [hedges]
    decide

/-- C2: after any sequence of `createNode` / `deleteNode` / `createEdge` /
`deleteEdge` operations starting from a freshly initialized editor (any
configuration with duplicate-free `nodeDefaults` / `edgeStyle` keys, any
random stream), `validateCache` reports zero issues: the incrementally
maintained connection cache agrees with the cache rebuilt from scratch. -/
theorem C2_cache_consistency (opts : Options) (r : ℕ → ℚ) (ops : List Op)
    (h1 : (opts.nodeDefaults.map Prod.fst).Nodup)
    (h2 : (opts.edgeStyle.map Prod.fst).Nodup) :
    (validateCache (runOps (emptyState opts r) ops)).1 = 0 :=
  validateCache_issues_zero
    (StoreInv_runOps ops _ (StoreInv_emptyState opts r h1 h2))

theorem C2_cache_consistency_witness :
    (validateCache (runOps (emptyState defaultOptions (fun _ => 0))
      [Op.createNode "default" (OptPos.mk (some 1) (some 2)) [],
       Op.createNode "default" (OptPos.mk (some 3) (some 4)) [],
       Op.createEdge "node-1" "node-2" (EdgeOptions.mk none none),
       Op.deleteEdge "edge-1",
       Op.deleteNode "node-1"])).1 = 0 :=
  C2_cache_consistency defaultOptions (fun _ => 0)
    [Op.createNode "default" (OptPos.mk (some 1) (some 2)) [],
     Op.createNode "default" (OptPos.mk (some 3) (some 4)) [],
     Op.createEdge "node-1" "node-2" (EdgeOptions.mk none none),
     Op.deleteEdge "edge-1",
     Op.deleteNode "node-1"] (by decide) (by decide)

theorem pairs_filter_length_le_one {l : List Edge}
    (h : (l.map (fun e => (e.source, e.target))).Nodup) (a b : String) :
    (l.filter (fun e => e.source = a ∧ e.target = b)).length ≤ 1 := by
  induction l with
  | nil => simp
  | cons e rest ih =>
    simp only [List.map_cons, List.nodup_cons] at h
    by_cases hp : e.source = a ∧ e.target = b
    · rw [List.filter_cons_of_pos (by simpa using hp)]
      have hrest : rest.filter
          (fun e2 => decide (e2.source = a ∧ e2.target = b)) = [] := by
        rw [List.filter_eq_nil_iff]
        intro x hx hpx
        rw [decide_eq_true_eq] at hpx
        apply h.1
        rw [hp.1, hp.2]
        exact List.mem_map.mpr ⟨x, hx, by rw [hpx.1, hpx.2]⟩
      rw [hrest]
      simp
    · rw [List.filter_cons_of_neg (by simpa using hp)]
      exact ih h.2

/-- C3: with both endpoints live and distinct, two `createEdge` calls with
the same ordered pair return the same edge id, the second call leaves the
state unchanged, and exactly one edge with that ordered pair is stored. -/
theorem C3_duplicate_suppression (s : SwanState) (a b : String)
    (o1 o2 : EdgeOptions) (hinv : StoreInv s) (hab : a ≠ b)
    (ha : (findNode s a).isSome) (hb : (findNode s b).isSome) :
    ∃ i, (createEdge s a b o1).1 = some i ∧
      createEdge (createEdge s a b o1).2 a b o2 =
        (some i, (createEdge s a b o1).2) ∧
      ((createEdge (createEdge s a b o1).2 a b o2).2.edges.filter
        (fun e => e.source = a ∧ e.target = b)).length = 1 := by
  cases hfind : s.edges.find? (fun e => e.source = a ∧ e.target = b) with
  | some e =>
    have h1 := createEdge_dup o1 ha hb hfind
    have h2 : createEdge (createEdge s a b o1).2 a b o2 =
        (some e.id, (createEdge s a b o1).2) := by
      rw [h1]
      show createEdge s a b o2 = (some e.id, s)
      exact createEdge_dup o2 ha hb hfind
    refine ⟨e.id, by rw [h1], h2, ?_⟩
    rw [h2, h1]
    show (s.edges.filter (fun e2 => e2.source = a ∧ e2.target = b)).length = 1
    have hle := pairs_filter_length_le_one hinv.2.2.2.2.1 a b
    have hmem : e ∈ s.edges := List.mem_of_find?_eq_some hfind
    have hpe := List.find?_some hfind
    have hpos : e ∈ s.edges.filter
        (fun e2 => e2.source = a ∧ e2.target = b) :=
      List.mem_filter.mpr ⟨hmem, hpe⟩
    have hlen : 0 < (s.edges.filter
        (fun e2 => e2.source = a ∧ e2.target = b)).length :=
      List.length_pos.mpr (List.ne_nil_of_mem hpos)
    omega
  | none =>
    obtain ⟨edge, hid, hsrc, htgt, _, _, hrun⟩ := createEdge_new o1 ha hb hfind
    have hEn : (createEdge s a b o1).2.nodes = s.nodes := by
      rw [hrun, updateCacheOnEdgeCreate_nodes]
    have hEe : (createEdge s a b o1).2.edges = s.edges ++ [edge] := by
      rw [hrun, updateCacheOnEdgeCreate_edges]
      show edgesSet s.edges edge = s.edges ++ [edge]
      apply edgesSet_fresh
      rw [hid]
      exact fresh_of_bounded (fun x y hxy => edgeIdOf_inj hxy)
        (edgeIds_bound_all hinv.2.2.2.2.2.2.2.1)
    have ha2 : (findNode (createEdge s a b o1).2 a).isSome := by
      unfold findNode at ha ⊢
      rw [hEn]
      exact ha
    have hb2 : (findNode (createEdge s a b o1).2 b).isSome := by
      unfold findNode at hb ⊢
      rw [hEn]
      exact hb
    have hpedge : (fun e => decide (e.source = a ∧ e.target = b)) edge
        = true := by
      rw [decide_eq_true_eq]
      exact ⟨hsrc, htgt⟩
    have hfind2 : (createEdge s a b o1).2.edges.find?
        (fun e => e.source = a ∧ e.target = b) = some edge := by
      rw [hEe, List.find?_append, hfind]
      simp only [Option.none_or]
      exact List.find?_cons_of_pos _ hpedge
    have h2 := createEdge_dup o2 ha2 hb2 hfind2
    refine ⟨edge.id, by rw [hrun], h2, ?_⟩
    have h2s : (createEdge (createEdge s a b o1).2 a b o2).2 =
        (createEdge s a b o1).2 := by
      rw [h2]
    rw [h2s, hEe, List.filter_append _ _]
    have hnil : s.edges.filter (fun e => e.source = a ∧ e.target = b)
        = [] := by
      rw [List.filter_eq_nil_iff]
      intro x hx hpx
      exact List.find?_eq_none.mp hfind x hx hpx
    rw [hnil]
    simp only [List.nil_append, List.filter_cons, hpedge, List.filter_nil]
    rfl

theorem C3_duplicate_suppression_witness :
    ∃ i, (createEdge twoNodeState "node-1" "node-2"
        (EdgeOptions.mk none none)).1 = some i ∧
      createEdge (createEdge twoNodeState "node-1" "node-2"
          (EdgeOptions.mk none none)).2 "node-1" "node-2"
          (EdgeOptions.mk (some []) none) =
        (some i, (createEdge twoNodeState "node-1" "node-2"
          (EdgeOptions.mk none none)).2) ∧
      ((createEdge (createEdge twoNodeState "node-1" "node-2"
          (EdgeOptions.mk none none)).2 "node-1" "node-2"
          (EdgeOptions.mk (some []) none)).2.edges.filter
        (fun e => e.source = "node-1" ∧ e.target = "node-2")).length = 1 :=
  C3_duplicate_suppression twoNodeState "node-1" "node-2"
    (EdgeOptions.mk none none) (EdgeOptions.mk (some []) none)
    (by decide) (by decide) (by decide) (by decide)

/-- C4: `deleteNode` removes the node, removes every incident edge (leaving
no edge referencing the node), removes the id from the selection when the
node was live, and is a no-op on an id that is not in the store. -/
theorem C4_deleteNode_cascade (s : SwanState) (nid : String)
    (hinv : StoreInv s) :
    (deleteNode s nid).nodes = s.nodes.filter (fun n => n.id ≠ nid) ∧
    nid ∉ nodeIds (deleteNode s nid) ∧
    (deleteNode s nid).edges =
      s.edges.filter (fun e => ¬(e.source = nid ∨ e.target = nid)) ∧
    (deleteNode s nid).edges.filter
      (fun e => e.source = nid ∨ e.target = nid) = [] ∧
    ((findNode s nid).isSome →
      (deleteNode s nid).selectedNodes =
        s.selectedNodes.filter (fun i => i ≠ nid)) ∧
    (findNode s nid = none → deleteNode s nid = s) := by
  have hedges : (deleteNode s nid).edges =
      s.edges.filter (fun e => ¬(e.source = nid ∨ e.target = nid)) := by
    cases hf : findNode s nid with
    | none =>
      rw [deleteNode_notFound hf]
      have hnotmem : nid ∉ nodeIds s := by
        intro hmem
        have := (findNode_isSome_iff s nid).mpr hmem
        rw [hf] at this
        exact absurd this (by simp)
      symm
      apply List.filter_eq_self.mpr
      intro e he
      rw [decide_eq_true_eq]
      intro hor
      apply hnotmem
      cases hor with
      | inl hsrc => exact hsrc ▸ (hinv.2.2.2.2.2.1 e he).1
      | inr htgt => exact htgt ▸ (hinv.2.2.2.2.2.1 e he).2
    | some n => exact deleteNode_found_edges hinv.2.2.2.1 hf
  refine ⟨deleteNode_nodes s nid, ?_, hedges, ?_, ?_, deleteNode_notFound⟩
  · intro hmem
    rcases List.mem_map.mp hmem with ⟨n, hn, hnid⟩
    rw [deleteNode_nodes] at hn
    have := List.of_mem_filter hn
    rw [decide_eq_true_eq] at this
    exact this hnid
  · rw [hedges, List.filter_eq_nil_iff]
    intro x hx hpx
    have := List.of_mem_filter hx
    rw [decide_eq_true_eq] at this
    rw [decide_eq_true_eq] at hpx
    exact this hpx
  · intro hsome
    rcases Option.isSome_iff_exists.mp hsome with ⟨n, hf⟩
    exact deleteNode_found_selectedNodes hf

theorem C4_deleteNode_cascade_witness :
    (deleteNode connectedState "node-1").nodes =
      connectedState.nodes.filter (fun n => n.id ≠ "node-1") ∧
    "node-1" ∉ nodeIds (deleteNode connectedState "node-1") ∧
    (deleteNode connectedState "node-1").edges =
      connectedState.edges.filter
        (fun e => ¬(e.source = "node-1" ∨ e.target = "node-1")) ∧
    (deleteNode connectedState "node-1").edges.filter
      (fun e => e.source = "node-1" ∨ e.target = "node-1") = [] ∧
    ((findNode connectedState "node-1").isSome →
      (deleteNode connectedState "node-1").selectedNodes =
        connectedState.selectedNodes.filter (fun i => i ≠ "node-1")) ∧
    (findNode connectedState "node-1" = none →
      deleteNode connectedState "node-1" = connectedState) :=
  C4_deleteNode_cascade connectedState "node-1" (by decide)

/-- C8: the two duplicate checks disagree.  With exactly one edge between
distinct live nodes `a` and `b`, stored in the direction `b → a`,
`validateConnection(a, "output", b, "input")` returns false (any edge
between the pair, in either direction, blocks), while `createEdge(a, b)`
succeeds and appends a new edge (its duplicate check only matches the same
ordered direction). -/
theorem C8_duplicate_checks_disagree (s : SwanState) (a b : String)
    (e : Edge) (o : EdgeOptions) (hinv : StoreInv s) (hab : a ≠ b)
    (ha : (findNode s a).isSome) (hb : (findNode s b).isSome)
    (hfilter : s.edges.filter (fun e2 => (e2.source = a ∧ e2.target = b) ∨
      (e2.source = b ∧ e2.target = a)) = [e])
    (hsrc : e.source = b) (htgt : e.target = a) :
    validateConnection s a "output" b "input" = false ∧
    ∃ edge : Edge, edge.id = edgeIdOf s.edgeIdCounter ∧ edge.source = a ∧
      edge.target = b ∧ (createEdge s a b o).1 = some edge.id ∧
      (createEdge s a b o).2.edges = s.edges ++ [edge] := by
  constructor
  · unfold validateConnection
    rw [if_neg hab]
    rw [if_neg (by decide : ¬("output" : String) = "input")]
    have hememb : e ∈ s.edges := by
      have hin : e ∈ s.edges.filter
          (fun e2 => (e2.source = a ∧ e2.target = b) ∨
            (e2.source = b ∧ e2.target = a)) := by
        rw [hfilter]
        exact List.mem_singleton.mpr rfl
      exact (List.mem_filter.mp hin).1
    have hpe : (fun e2 => decide ((e2.source = a ∧ e2.target = b) ∨
        (e2.source = b ∧ e2.target = a))) e = true := by
      rw [decide_eq_true_eq]
      exact Or.inr ⟨hsrc, htgt⟩
    cases hfo : s.edges.find? (fun e2 => (e2.source = a ∧ e2.target = b) ∨
        (e2.source = b ∧ e2.target = a)) with
    | none => exact absurd hpe (List.find?_eq_none.mp hfo e hememb)
    | some x => rfl
  · cases hfind : s.edges.find?
        (fun e2 => e2.source = a ∧ e2.target = b) with
    | some x =>
      have hxmem := List.mem_of_find?_eq_some hfind
      have hxp := List.find?_some hfind
      rw [decide_eq_true_eq] at hxp
      have hxin : x ∈ s.edges.filter
          (fun e2 => (e2.source = a ∧ e2.target = b) ∨
            (e2.source = b ∧ e2.target = a)) :=
        List.mem_filter.mpr ⟨hxmem, by
          rw [decide_eq_true_eq]
          exact Or.inl hxp⟩
      rw [hfilter] at hxin
      have hxe : x = e := List.mem_singleton.mp hxin
      subst hxe
      have hba : b = a := by
        rw [← hsrc]
        exact hxp.1
      exact absurd hba.symm hab
    | none =>
      obtain ⟨edge, hid, hs2, ht2, _, _, hrun⟩ := createEdge_new o ha hb hfind
      refine ⟨edge, hid, hs2, ht2, by rw [hrun], ?_⟩
      rw [hrun, updateCacheOnEdgeCreate_edges]
      show edgesSet s.edges edge = s.edges ++ [edge]
      apply edgesSet_fresh
      rw [hid]
      exact fresh_of_bounded (fun x y hxy => edgeIdOf_inj hxy)
        (edgeIds_bound_all hinv.2.2.2.2.2.2.2.1)

theorem C8_duplicate_checks_disagree_witness :
    validateConnection reversedState "node-1" "output" "node-2" "input"
      = false ∧
    ∃ edge : Edge, edge.id = edgeIdOf reversedState.edgeIdCounter ∧
      edge.source = "node-1" ∧ edge.target = "node-2" ∧
      (createEdge reversedState "node-1" "node-2"
        (EdgeOptions.mk none none)).1 = some edge.id ∧
      (createEdge reversedState "node-1" "node-2"
        (EdgeOptions.mk none none)).2.edges =
        reversedState.edges ++ [edge] :=
  C8_duplicate_checks_disagree reversedState "node-1" "node-2"
    (Edge.mk "edge-1" "node-2" "node-1" defaultEdgeStyle [])
    (EdgeOptions.mk none none) (by decide) (by decide) (by decide)
    (by decide) (by decide) (by decide) (by decide)

theorem pos_eq_of_coords {p q : Pos} (hx : p.x = q.x) (hy : p.y = q.y) :
    p = q := by
  cases p with
  | mk px py =>
    cases q with
    | mk qx qy =>
      change px = qx at hx
      change py = qy at hy
      rw [hx, hy]

/-- C9: at drag end, a move notification is emitted exactly for the dragged
nodes that are live, have a recorded start position, and whose current
position differs from it; a session ending with every node at its start
position emits nothing, and the session is cleared. -/
theorem C9_endDrag_moved_only (s : SwanState) (d : DragState)
    (hd : s.dragState = some d) :
    (∀ nid, nid ∈ (endDrag s).1 ↔ nid ∈ d.nodes ∧
      ∃ n p, findNode s nid = some n ∧
        mapGet d.startPositions nid = some p ∧ p ≠ n.position) ∧
    ((∀ nid ∈ d.nodes, ∀ n p, findNode s nid = some n →
        mapGet d.startPositions nid = some p → p = n.position) →
      (endDrag s).1 = []) ∧
    (endDrag s).2.dragState = none := by
  have he : endDrag s = (d.nodes.filter (fun nodeId =>
      match findNode s nodeId, mapGet d.startPositions nodeId with
      | some n, some startPos =>
        decide (startPos.x ≠ n.position.x ∨ startPos.y ≠ n.position.y)
      | some _, none => false
      | none, _ => false), { s with dragState := none }) := by
    unfold endDrag
    rw [hd]
  have hpred : ∀ nid, ((fun nodeId =>
      match findNode s nodeId, mapGet d.startPositions nodeId with
      | some n, some startPos =>
        decide (startPos.x ≠ n.position.x ∨ startPos.y ≠ n.position.y)
      | some _, none => false
      | none, _ => false) nid = true ↔
      ∃ n p, findNode s nid = some n ∧
        mapGet d.startPositions nid = some p ∧ p ≠ n.position) := by
    intro nid
    cases hn : findNode s nid with
    | none => simp [hn]
    | some n =>
      cases hp : mapGet d.startPositions nid with
      | none => simp [hn, hp]
      | some p =>
        simp only [hn, hp, decide_eq_true_eq, Option.some_inj]
        constructor
        · intro hor
          refine ⟨n, p, rfl, rfl, ?_⟩
          intro heq
          rcases hor with h | h <;> exact h (by rw [heq])
        · rintro ⟨n2, p2, hn2, hp2, hne⟩
          subst hn2
          subst hp2
          by_contra hcon
          push_neg at hcon
          exact hne (pos_eq_of_coords hcon.1 hcon.2)
  refine ⟨?_, ?_, by rw [he]⟩
  · intro nid
    rw [he]
    simp only [List.mem_filter]
    constructor
    · rintro ⟨hmem, hfil⟩
      exact ⟨hmem, (hpred nid).mp hfil⟩
    · rintro ⟨hmem, hex⟩
      exact ⟨hmem, (hpred nid).mpr hex⟩
  · intro hall
    rw [he]
    simp only
    rw [List.filter_eq_nil_iff]
    intro nid hmem hfil
    obtain ⟨n, p, hn, hp, hne⟩ := (hpred nid).mp hfil
    exact hne (hall nid hmem n p hn hp)

theorem C9_endDrag_moved_only_witness :
    (∀ nid, nid ∈ (endDrag dragEndState).1 ↔
      nid ∈ ["node-1", "node-2"] ∧
      ∃ n p, findNode dragEndState nid = some n ∧
        mapGet [("node-1", Pos.mk 10 20), ("node-2", Pos.mk 31 40)] nid
          = some p ∧ p ≠ n.position) ∧
    ((∀ nid ∈ ["node-1", "node-2"], ∀ n p,
        findNode dragEndState nid = some n →
        mapGet [("node-1", Pos.mk 10 20), ("node-2", Pos.mk 31 40)] nid
          = some p → p = n.position) →
      (endDrag dragEndState).1 = []) ∧
    (endDrag dragEndState).2.dragState = none :=
  C9_endDrag_moved_only dragEndState
    (DragState.mk ["node-1", "node-2"]
      [("node-1", Pos.mk 10 20), ("node-2", Pos.mk 31 40)]) (by decide)

/-- C10: a caller-supplied coordinate equal to 0 is not stored as given: the
falsy test replaces it by a pseudo-random value, x in [100, 500) and y in
[100, 400) (when the random stream stays in [0, 1)), while every nonzero
supplied coordinate is stored exactly. -/
theorem C10_zero_coordinate_randomized (s : SwanState) (t : String)
    (p : OptPos) (d : JObj) (hrand : ∀ m, 0 ≤ s.rand m ∧ s.rand m < 1) :
    ∃ n : Node, (createNode s t p d).2.nodes = nodesSet s.nodes n ∧
      n.id = (createNode s t p d).1 ∧
      (∀ xv, p.x = some xv → xv ≠ 0 → n.position.x = xv) ∧
      (∀ yv, p.y = some yv → yv ≠ 0 → n.position.y = yv) ∧
      ((p.x = some 0 ∨ p.x = none) →
        100 ≤ n.position.x ∧ n.position.x < 500) ∧
      ((p.y = some 0 ∨ p.y = none) →
        100 ≤ n.position.y ∧ n.position.y < 400) := by
  obtain ⟨n, hres, hid, _, _, _, hnodes, _, _, _, _, _, hxe, hye, hxr, hyr⟩ :=
    createNode_spec s t p d
  refine ⟨n, hnodes, by rw [hid, hres], hxe, hye, ?_, ?_⟩
  · intro h
    rw [hxr h]
    obtain ⟨h0, h1⟩ := hrand s.randIdx
    constructor <;> nlinarith
  · intro h
    rcases hyr h with hy | hy <;> rw [hy]
    · obtain ⟨h0, h1⟩ := hrand s.randIdx
      constructor <;> nlinarith
    · obtain ⟨h0, h1⟩ := hrand (s.randIdx + 1)
      constructor <;> nlinarith

theorem C10_zero_coordinate_randomized_witness :
    ∃ n : Node,
      (createNode (emptyState defaultOptions (fun _ => 1/2)) "default"
        (OptPos.mk (some 0) none) []).2.nodes =
        nodesSet (emptyState defaultOptions (fun _ => 1/2)).nodes n ∧
      n.id = (createNode (emptyState defaultOptions (fun _ => 1/2)) "default"
        (OptPos.mk (some 0) none) []).1 ∧
      (∀ xv, (OptPos.mk (some (0 : ℚ)) none).x = some xv → xv ≠ 0 →
        n.position.x = xv) ∧
      (∀ yv, (OptPos.mk (some (0 : ℚ)) none).y = some yv → yv ≠ 0 →
        n.position.y = yv) ∧
      (((OptPos.mk (some (0 : ℚ)) none).x = some 0 ∨
          (OptPos.mk (some (0 : ℚ)) none).x = none) →
        100 ≤ n.position.x ∧ n.position.x < 500) ∧
      (((OptPos.mk (some (0 : ℚ)) none).y = some 0 ∨
          (OptPos.mk (some (0 : ℚ)) none).y = none) →
        100 ≤ n.position.y ∧ n.position.y < 400) :=
  C10_zero_coordinate_randomized (emptyState defaultOptions (fun _ => 1/2))
    "default" (OptPos.mk (some 0) none) []
    (by
      intro m
      simp only [emptyState]
      constructor <;> norm_num)

/-- C5, counterexample to the original claim: a node whose stored x
coordinate is exactly 0 does not survive an export / clear / import round
trip — the reimported node's x becomes 100 (the randomized default at
random value 0) instead of 0; position equality fails. -/
theorem C5_zero_position_counterexample :
    zeroXState.nodes.map (fun n => n.position) = [Pos.mk 0 5] ∧
    (importJSON (ParseResult.parsedDoc (getWorkflowData zeroXState))
      zeroXState).2.nodes.map (fun n => n.position) = [Pos.mk 100 5] := by
  constructor
  · decide
  · have h1 : (importJSON (ParseResult.parsedDoc (getWorkflowData zeroXState))
        zeroXState).2.nodes.map (fun n => n.position) =
        [Pos.mk ((0 : ℚ) * 400 + 100) 5] := rfl
    rw [h1]
    norm_num

theorem C5_roundtrip_amended_witness :
    (importJSON (ParseResult.parsedDoc (getWorkflowData connectedState))
      connectedState).1 = true ∧
    (importJSON (ParseResult.parsedDoc (getWorkflowData connectedState))
      connectedState).2.nodes.length = connectedState.nodes.length ∧
    (importJSON (ParseResult.parsedDoc (getWorkflowData connectedState))
      connectedState).2.edges.length = connectedState.edges.length ∧
    (∀ (j : ℕ) (n n2 : Node), connectedState.nodes[j]? = some n →
      (importJSON (ParseResult.parsedDoc (getWorkflowData connectedState))
        connectedState).2.nodes[j]? = some n2 →
      n2.type = n.type ∧ n2.position = n.position ∧ n2.data = n.data) ∧
    (∀ (j : ℕ) (e e2 : Edge), connectedState.edges[j]? = some e →
      (importJSON (ParseResult.parsedDoc (getWorkflowData connectedState))
        connectedState).2.edges[j]? = some e2 →
      e2.style = e.style ∧ e2.data = e.data ∧
      (∀ (i : ℕ) (n n2 : Node), connectedState.nodes[i]? = some n →
        (importJSON (ParseResult.parsedDoc (getWorkflowData connectedState))
          connectedState).2.nodes[i]? = some n2 →
        (e.source = n.id → e2.source = n2.id) ∧
        (e.target = n.id → e2.target = n2.id))) :=
  C5_roundtrip_amended connectedState (by decide) (by decide)
